import Mathlib

/-!
Shallow embedding of OpenOCD's nRF52 flash driver (src/flash/nor/nrf52.c)
and verification of its specification.

The driver is a small state machine coordinating an external debug-probe
transport (register/memory reads and writes, scratch-memory allocation and
an on-target streamed write), the NVMC mode-configuration registers and a
per-bank sector table.  We model the externals as an `Env` of injected
capabilities, indexed by a step counter so that results may vary over time
(needed e.g. for the ready-poll loop), and thread an explicit state `St`
holding the sector table plus a trace of every external operation the
driver attempts.  Each C function becomes a Lean function in the monad
`M α = Env → St → Res α`, where `Res` keeps the state (hence the trace)
on both success and failure, mirroring the C `int` result codes with an
inductive error type.

All machine integers are modelled as `Nat` with explicit reduction
`% 2^32` exactly where the C `uint32_t` arithmetic can wrap.
-/

/-! ### Error codes

The distinct `int` error codes the driver returns or propagates.  The
environment injects errors of the same type (the C code propagates the
callee's `res` verbatim). -/

inductive Err where
  | ioError
  | flashBusy
  | sectorInvalid
  | fail
  | resourceUnavailable
  | bankNotProbed
  | assertFail
  deriving DecidableEq, Repr

/-! ### Events

One event is recorded for every external operation the driver attempts,
at the moment of the attempt (before the environment decides success or
failure). -/

inductive Event where
  | readU32 (addr : Nat)
  | writeU32 (addr val : Nat)
  | readMem (addr len : Nat)
  | writeMem (addr len : Nat)
  | writeBuffer (addr len : Nat)
  | sleep
  | allocWA (size : Nat)
  | freeWA (addr : Nat)
  | runAlgo (addr bytes : Nat)
  deriving DecidableEq, Repr

/-- One entry of `bank->sectors`: `struct flash_sector` as used by the
driver.  `is_erased` and `is_protected` use the C encoding
(-1 unknown, 0 no, 1 yes). -/
structure Sector where
  offset : Nat
  size : Nat
  is_erased : Int
  is_protected : Int
  deriving DecidableEq, Repr

instance : Inhabited Sector := ⟨⟨0, 0, -1, -1⟩⟩

/-- Mutable driver state: the sector table of the bank being operated on,
plus the trace of external operations attempted so far.  The step counter
handed to the environment is `trace.length`. -/
structure St where
  sectors : List Sector
  trace : List Event
  deriving DecidableEq, Repr

/-- Target memory is a byte map; byte buffers are modelled functionally
(no claim inspects more than lengths and selected bytes). -/
structure Buf where
  data : Nat → Nat

/-- Injected capabilities of the excluded transport/target layer.  Each
operation receives the current step counter, so its outcome may vary over
time. -/
structure Env where
  readU32 : Nat → Nat → Except Err Nat
  writeU32 : Nat → Nat → Nat → Except Err Unit
  readMemErr : Nat → Nat → Nat → Option Err
  mem : Nat → Nat
  writeMem : Nat → Nat → Except Err Unit
  writeBuffer : Nat → Except Err Unit
  allocWA : Nat → Nat → Option Nat
  runAlgo : Nat → Except Err Unit
  allocSectors : Nat → Bool

/-- Result of a run: value or error, with the final state in both cases
(the C functions return an error code but their side effects up to the
failure remain). -/
inductive Res (α : Type) where
  | ok (a : α) (s : St)
  | err (e : Err) (s : St)
  deriving DecidableEq, Repr

/-- The driver monad. -/
def M (α : Type) : Type := Env → St → Res α

def M.pure {α : Type} (a : α) : M α := fun _ s => .ok a s

def M.bind {α β : Type} (x : M α) (f : α → M β) : M β := fun env s =>
  match x env s with
  | .ok a s' => f a env s'
  | .err e s' => .err e s'

instance : Monad M where
  pure := M.pure
  bind := M.bind

def M.throw {α : Type} (e : Err) : M α := fun _ s => .err e s

instance : MonadExceptOf Err M where
  throw := M.throw
  tryCatch x h := fun env s =>
    match x env s with
    | .ok a s' => .ok a s'
    | .err e s' => h e env s'

/-- Final state of a finished run. -/
def Res.st {α : Type} : Res α → St
  | .ok _ s => s
  | .err _ s => s

/-- Result code of a finished run. -/
def Res.toExcept {α : Type} : Res α → Except Err α
  | .ok a _ => .ok a
  | .err e _ => .error e

/-! ### Monad primitives -/

def getSectors : M (List Sector) := fun _ s => .ok s.sectors s

def setSectors (l : List Sector) : M Unit := fun _ s => .ok () { s with sectors := l }

/-- Mark sector `i` erased, as the C `sector->is_erased = 1` through a
pointer into `bank->sectors`. -/
def setSectorErased (i : Nat) : M Unit := fun _ s =>
  .ok () { s with sectors := s.sectors.set i { s.sectors.getD i default with is_erased := 1 } }

/-- Model of `target_read_u32`. -/
def target_read_u32 (addr : Nat) : M Nat := fun env s =>
  match env.readU32 s.trace.length addr with
  | .ok v => .ok v { s with trace := s.trace ++ [.readU32 addr] }
  | .error e => .err e { s with trace := s.trace ++ [.readU32 addr] }

/-- Model of `target_write_u32`, returning the result code without
throwing (the caller decides whether to propagate it). -/
def target_write_u32_res (addr val : Nat) : M (Except Err Unit) := fun env s =>
  .ok (env.writeU32 s.trace.length addr val) { s with trace := s.trace ++ [.writeU32 addr val] }

/-- Model of `target_write_u32` where the caller propagates a failure. -/
def target_write_u32 (addr val : Nat) : M Unit := do
  match ← target_write_u32_res addr val with
  | .ok _ => pure ()
  | .error e => M.throw e

/-- Model of `target_read_memory` with width 1: returns the target bytes
starting at `addr`. -/
def target_read_memory (addr len : Nat) : M Buf := fun env s =>
  match env.readMemErr s.trace.length addr len with
  | none => .ok ⟨fun i => env.mem (addr + i)⟩ { s with trace := s.trace ++ [.readMem addr len] }
  | some e => .err e { s with trace := s.trace ++ [.readMem addr len] }

/-- Model of `target_write_memory(target, addr, 4, 1, buffer)` as used by
the slow word-at-a-time path. -/
def target_write_memory (addr : Nat) : M Unit := fun env s =>
  match env.writeMem s.trace.length addr with
  | .ok _ => .ok () { s with trace := s.trace ++ [.writeMem addr 4] }
  | .error e => .err e { s with trace := s.trace ++ [.writeMem addr 4] }

/-- Model of `target_write_buffer` (installing the loader program). -/
def target_write_buffer (addr len : Nat) : M Unit := fun env s =>
  match env.writeBuffer s.trace.length with
  | .ok _ => .ok () { s with trace := s.trace ++ [.writeBuffer addr len] }
  | .error e => .err e { s with trace := s.trace ++ [.writeBuffer addr len] }

/-- Model of `target_alloc_working_area`: `some address` on success. -/
def target_alloc_working_area (size : Nat) : M (Option Nat) := fun env s =>
  .ok (env.allocWA s.trace.length size) { s with trace := s.trace ++ [.allocWA size] }

/-- Model of `target_free_working_area`. -/
def target_free_working_area (addr : Nat) : M Unit := fun _ s =>
  .ok () { s with trace := s.trace ++ [.freeWA addr] }

/-- Model of `target_run_flash_async_algorithm`: the whole streamed
execution (FIFO producer loop plus on-target program) is one external
operation; its result code is captured, not thrown, because the C code
frees the working areas before returning it. -/
def target_run_flash_async_algorithm (addr bytes : Nat) : M (Except Err Unit) := fun env s =>
  .ok (env.runAlgo s.trace.length) { s with trace := s.trace ++ [.runAlgo addr bytes] }

/-- Model of `alive_sleep(1)`. -/
def msleep : M Unit := fun _ s => .ok () { s with trace := s.trace ++ [.sleep] }

/-! ### Register addresses and bit fields (nrf52.c lines 33-58) -/

def NRF52_FLASH_BASE_ADDR : Nat := 0x0
def NRF52_FICR_BASE_ADDR : Nat := 0x10000000
def NRF52_FICR_CODEPAGESIZE_ADDR : Nat := 0x10000010
def NRF52_FICR_CODESIZE_ADDR : Nat := 0x10000014
def NRF52_UICR_BASE_ADDR : Nat := 0x10001000
def NRF52_NVMC_BASE_ADDR : Nat := 0x4001E000
def NRF52_NVMC_READY_ADDR : Nat := 0x4001E400
def NRF52_NVMC_CONFIG_ADDR : Nat := 0x4001E504
def NRF52_NVMC_ERASEPAGE_ADDR : Nat := 0x4001E508
def NRF52_NVMC_ERASEALL_ADDR : Nat := 0x4001E50C
def NRF52_NVMC_ERASEUICR_ADDR : Nat := 0x4001E514

def NRF52_NVMC_CONFIG_REN : Nat := 0x0
def NRF52_NVMC_CONFIG_WEN : Nat := 0x01
def NRF52_NVMC_CONFIG_EEN : Nat := 0x02

def NRF52_NVMC_BUSY : Nat := 0x0
def NRF52_NVMC_READY : Nat := 0x01

/-- Reduction of a C `uint32_t` expression. -/
def u32 (n : Nat) : Nat := n % 4294967296

/-- C `uint32_t` subtraction `a - b` (wraps modulo `2^32`). -/
def u32sub (a b : Nat) : Nat := (a + (4294967296 - b % 4294967296)) % 4294967296

/-! ### nrf52_wait_for_nvmc (lines 157-178)

`int timeout = 100; do { read READY; if ready return OK; sleep(1); }
while (timeout--);` — the body runs once, then once more for each of the
101 truthy tests of `timeout--` (values 100..1), i.e. up to 101 reads in
total, with a sleep after every unsuccessful read.  The fuel argument
counts the remaining decrements. -/

def nrf52_wait_loop : Nat → M Unit
  | 0 => do
    let ready ← target_read_u32 NRF52_NVMC_READY_ADDR
    if ready = NRF52_NVMC_READY then pure ()
    else do
      msleep
      M.throw Err.flashBusy
  | fuel+1 => do
    let ready ← target_read_u32 NRF52_NVMC_READY_ADDR
    if ready = NRF52_NVMC_READY then pure ()
    else do
      msleep
      nrf52_wait_loop fuel

def nrf52_wait_for_nvmc : M Unit := nrf52_wait_loop 100

/-! ### NVMC mode transitions (lines 180-235) -/

def nrf52_nvmc_erase_enable : M Unit := do
  nrf52_wait_for_nvmc
  target_write_u32 NRF52_NVMC_CONFIG_ADDR NRF52_NVMC_CONFIG_EEN

def nrf52_nvmc_write_enable : M Unit := do
  nrf52_wait_for_nvmc
  target_write_u32 NRF52_NVMC_CONFIG_ADDR NRF52_NVMC_CONFIG_WEN

def nrf52_nvmc_read_only : M Unit := do
  nrf52_wait_for_nvmc
  target_write_u32 NRF52_NVMC_CONFIG_ADDR NRF52_NVMC_CONFIG_REN

/-- `nrf52_nvmc_generic_erase` (lines 237-254): enable erase mode, write
the trigger value, then return to read-only.  The C code checks the
trigger write's result only to log it — the function's own result is
whatever `nrf52_nvmc_read_only` returns. -/
def nrf52_nvmc_generic_erase (erase_register erase_value : Nat) : M Unit := do
  nrf52_nvmc_erase_enable
  let _ ← target_write_u32_res erase_register erase_value
  nrf52_nvmc_read_only

/-- `nrf52_protect_check` (lines 256-260): logs a warning, reports
success. -/
def nrf52_protect_check : M Unit := pure ()

/-! ### Sector lookup (nrf52_find_sector_by_address, lines 268-280)

The C function walks `bank->sectors` and returns a pointer to the first
sector whose half-open range `[offset, offset + code_page_size)` (the
upper bound computed in `uint32_t`) contains the address; we return the
index instead of a pointer. -/

def findSectorAux (ps addr : Nat) : List Sector → Nat → Option Nat
  | [], _ => none
  | sec :: rest, i =>
    if sec.offset ≤ addr ∧ addr < u32 (sec.offset + ps) then some i
    else findSectorAux ps addr rest (i + 1)

def nrf52_find_sector_by_address (ps addr : Nat) (sectors : List Sector) : Option Nat :=
  findSectorAux ps addr sectors 0

/-! ### nrf52_probe (lines 76-139) -/

/-- The probe's sector-filling loop: `for i: sectors[i].size = ps;
sectors[i].offset = i * ps; is_erased = is_protected = -1;` compiled as a
recursion on the remaining count, carrying the next index. -/
def buildSectors (ps : Nat) : Nat → Nat → List Sector
  | _, 0 => []
  | i, n+1 =>
    { offset := u32 (i * ps), size := ps, is_erased := -1, is_protected := -1 }
      :: buildSectors ps (i + 1) n

/-- `nrf52_probe`: read page size and code size from the FICR, derive the
bank geometry, allocate and fill the sector table, mark everything
unknown.  Returns `(code_page_size, bank_size)`. -/
def nrf52_probe (base : Nat) : M (Nat × Nat) := fun env s =>
  (do
    let code_page_size ← target_read_u32 NRF52_FICR_CODEPAGESIZE_ADDR
    let cs ← target_read_u32 NRF52_FICR_CODESIZE_ADDR
    let code_memory_size := u32 (cs * code_page_size)
    if base = NRF52_FLASH_BASE_ADDR then do
      let size := code_memory_size
      let num_sectors := size / code_page_size
      if env.allocSectors num_sectors then do
        setSectors (buildSectors code_page_size 0 num_sectors)
        nrf52_protect_check
        pure (code_page_size, size)
      else M.throw Err.bankNotProbed
    else do
      let size := code_page_size
      if env.allocSectors 1 then do
        setSectors [{ offset := 0, size := size, is_erased := -1, is_protected := -1 }]
        pure (code_page_size, size)
      else M.throw Err.bankNotProbed) env s

/-! ### nrf52_erase_page (lines 290-315) -/

/-- Erase the sector at index `i` of the current bank: refuse if the
sector is marked protected, fire the UICR or code-page erase trigger
through the generic erase, and on success mark the sector erased. -/
def nrf52_erase_page (base ps : Nat) (i : Nat) : M Unit := do
  let secs ← getSectors
  let sec := secs.getD i default
  if sec.is_protected = 1 then M.throw Err.fail
  else do
    if base = NRF52_UICR_BASE_ADDR then
      nrf52_nvmc_generic_erase NRF52_NVMC_ERASEUICR_ADDR 0x00000001
    else
      nrf52_nvmc_generic_erase NRF52_NVMC_ERASEPAGE_ADDR sec.offset
    setSectorErased i

/-! ### Streaming loader (nrf52_ll_flash_write, lines 317-430) -/

/-- The fixed on-target loader program image
(`nrf52_flash_write_code`). -/
def nrf52_flash_write_code : List Nat :=
  [0x0d, 0x68, 0x00, 0x2d, 0x0b, 0xd0, 0x4c, 0x68,
   0xac, 0x42, 0xf9, 0xd0, 0x20, 0xcc, 0x20, 0xc3,
   0x94, 0x42, 0x01, 0xd3, 0x0c, 0x46, 0x08, 0x34,
   0x4c, 0x60, 0x04, 0x38, 0xf0, 0xd1, 0x00, 0xbe]

/-- The slow fallback: one 4-byte word at a time, each write followed by
a ready-wait.  `for (; bytes > 0; bytes -= 4)` with `bytes % 4 == 0`
asserted runs `bytes / 4` iterations. -/
def nrf52_slow_writes : Nat → Nat → M Unit
  | _, 0 => pure ()
  | offset, n+1 => do
    target_write_memory offset
    nrf52_wait_for_nvmc
    nrf52_slow_writes (offset + 4) n

/-- The buffer-area shrink loop: `while (alloc(buffer_size) fails)
{ buffer_size /= 2; buffer_size &= ~3; if (buffer_size <= 256) give up }`.
The fuel bounds the number of halvings; `16` is ample for the start value
8192 (the loop gives up via the 256-byte floor long before). -/
def nrf52_alloc_buffer : Nat → Nat → M (Option (Nat × Nat))
  | 0, _ => pure none
  | fuel+1, buffer_size => do
    match ← target_alloc_working_area buffer_size with
    | some a => pure (some (a, buffer_size))
    | none =>
      let bs := buffer_size / 2 / 4 * 4
      if bs ≤ 256 then pure none
      else nrf52_alloc_buffer fuel bs

/-- `nrf52_ll_flash_write`: allocate a working area for the loader
program (falling back to the slow word loop if none), install the
program, allocate the streaming buffer (shrinking down to the 256-byte
floor, then giving up with a resource error), run the streamed write, and
release both areas before surfacing its result. -/
def nrf52_ll_flash_write (offset : Nat) (buffer : Buf) (bytes : Nat) : M Unit := do
  let address := NRF52_FLASH_BASE_ADDR + offset
  if bytes % 4 ≠ 0 then M.throw Err.assertFail
  else do
    match ← target_alloc_working_area nrf52_flash_write_code.length with
    | none =>
      nrf52_slow_writes offset (bytes / 4)
    | some write_algorithm => do
      target_write_buffer write_algorithm nrf52_flash_write_code.length
      match ← nrf52_alloc_buffer 16 8192 with
      | none => do
        target_free_working_area write_algorithm
        M.throw Err.resourceUnavailable
      | some source => do
        let retval ← target_run_flash_async_algorithm address bytes
        target_free_working_area source.1
        target_free_working_area write_algorithm
        match retval with
        | .ok _ => pure ()
        | .error e => M.throw e

/-! ### nrf52_write_pages (lines 435-482) -/

/-- The erase loop of `nrf52_write_pages`: `for (offset = start;
offset < end; offset += page_size)` compiled as a recursion on the number
of remaining pages, `(end - start) / page_size` in the caller — the
loop's exact iteration count when `start ≤ end` and both are
page-aligned, as the page-alignment asserts and both call sites ensure.
Each page is located in the sector table (invalid-sector if absent),
protected sectors are refused, sectors not already marked erased are
erased, and the sector is marked erased. -/
def nrf52_erase_range (base ps : Nat) : Nat → Nat → M Unit
  | _, 0 => pure ()
  | offset, k+1 => do
    let secs ← getSectors
    match nrf52_find_sector_by_address ps offset secs with
    | none => M.throw Err.sectorInvalid
    | some i => do
      let sec := secs.getD i default
      if sec.is_protected = 1 then M.throw Err.fail
      else do
        if sec.is_erased ≠ 1 then nrf52_erase_page base ps i
        setSectorErased i
        nrf52_erase_range base ps (offset + ps) k

/-- `nrf52_write_pages`: erase every sector of the page-aligned range
`[start, end)` that is not already marked erased, enable write mode,
delegate the whole buffer to the low-level write, and return the
controller to read-only mode on both the success and the failure path of
that write (the failure path discards the read-only transition's own
result and surfaces the write error). -/
def nrf52_write_pages (base ps start endOff : Nat) (buffer : Buf) : M Unit := do
  if start % ps ≠ 0 then M.throw Err.assertFail
  else if endOff % ps ≠ 0 then M.throw Err.assertFail
  else do
    nrf52_erase_range base ps start (u32sub endOff start / ps)
    nrf52_nvmc_write_enable
    tryCatch
      (nrf52_ll_flash_write start buffer (u32sub endOff start))
      (fun e => do
        let _ ← tryCatch nrf52_nvmc_read_only (fun _ => pure ())
        M.throw e)
    nrf52_nvmc_read_only

/-! ### Region drivers (lines 497-575) -/

/-- `memcpy(dst + dstOff, src, count)` on functional byte buffers. -/
def memcpyBuf (dst : Buf) (dstOff : Nat) (src : Buf) (count : Nat) : Buf :=
  ⟨fun i => if dstOff ≤ i ∧ i < dstOff + count then src.data (i - dstOff) else dst.data i⟩

/-- `nrf52_code_flash_write`: compute the page-aligned hull of the
requested range, read the pre gap (bytes of the first page before the
requested offset) and the post gap (bytes of the last page after the
requested data) from target memory, splice the caller data between them
and hand the page-aligned buffer to `nrf52_write_pages`. -/
def nrf52_code_flash_write (base ps : Nat) (buffer : Buf) (offset count : Nat) : M Unit := do
  let first_page := offset / ps
  let last_page := u32 (offset + count + ps - 1) / ps
  let first_page_offset := u32 (first_page * ps)
  let last_page_offset := u32 (last_page * ps)
  let pre := u32sub offset first_page_offset
  let btf0 : Buf := ⟨fun _ => 0⟩
  let btf1 ←
    if 0 < pre then do
      let b ← target_read_memory first_page_offset pre
      pure (memcpyBuf btf0 0 b pre)
    else pure btf0
  let btf2 := memcpyBuf btf1 pre buffer count
  let post := u32sub last_page_offset (u32 (offset + count))
  let btf3 ←
    if 0 < post then do
      let b ← target_read_memory (u32 (offset + count)) post
      pure (memcpyBuf btf2 (pre + count) b post)
    else pure btf2
  nrf52_write_pages base ps first_page_offset last_page_offset btf3

/-- `nrf52_uicr_flash_write`: reject a range whose `offset + count`
(computed in `uint32_t`) exceeds the one-page region, read the whole
region, erase its single sector unless already marked erased, splice the
caller data in place, enable write mode, rewrite the whole page and
return to read-only mode on both paths. -/
def nrf52_uicr_flash_write (ps : Nat) (buffer : Buf) (offset count : Nat) : M Unit := do
  let nrf52_uicr_size := ps
  if u32 (offset + count) > nrf52_uicr_size then M.throw Err.fail
  else do
    let uicr ← target_read_memory NRF52_UICR_BASE_ADDR nrf52_uicr_size
    let secs ← getSectors
    let sec := secs.getD 0 default
    if sec.is_erased ≠ 1 then nrf52_erase_page NRF52_UICR_BASE_ADDR ps 0
    let uicr2 := memcpyBuf uicr offset buffer count
    nrf52_nvmc_write_enable
    tryCatch
      (nrf52_ll_flash_write NRF52_UICR_BASE_ADDR uicr2 nrf52_uicr_size)
      (fun e => do
        let _ ← tryCatch nrf52_nvmc_read_only (fun _ => pure ())
        M.throw e)
    nrf52_nvmc_read_only

/-! ### Proof-side definitions: result projections, event counting, trace
shapes, environment classes and concrete environments. -/

/-- Whether a run finished without an error code. -/
def Res.isOk {α : Type} : Res α → Bool
  | .ok _ _ => true
  | .err _ _ => false

/-- Number of occurrences of an event in a trace. -/
def countEvt : List Event → Event → Nat
  | [], _ => 0
  | x :: xs, e => (if x = e then 1 else 0) + countEvt xs e

/-- Number of events satisfying a predicate. -/
def countIf : List Event → (Event → Bool) → Nat
  | [], _ => 0
  | x :: xs, p => (if p x then 1 else 0) + countIf xs p

def isWriteMemEvt : Event → Bool
  | .writeMem _ _ => true
  | _ => false

def isRunAlgoEvt : Event → Bool
  | .runAlgo _ _ => true
  | _ => false

def isWriteBufferEvt : Event → Bool
  | .writeBuffer _ _ => true
  | _ => false

def isReadMemEvt : Event → Bool
  | .readMem _ _ => true
  | _ => false

/-- Sector table of probe shape with page size `ps`, erase flags `er`,
carrying the index `c` of the first listed sector: sector `j` occupies
`[j*ps, (j+1)*ps)` and is unprotected. -/
def sectorsShape (ps : Nat) (er : Nat → Int) : Nat → Nat → List Sector
  | _, 0 => []
  | c, n+1 =>
    { offset := c * ps, size := ps, is_erased := er c, is_protected := -1 }
      :: sectorsShape ps er (c + 1) n

/-- Point update of an erase-flag assignment: sector `a` marked erased. -/
def setFlag (er : Nat → Int) (a : Nat) : Nat → Int := fun j => if j = a then 1 else er j

/-- Range update of an erase-flag assignment: sectors `[a, a+k)` marked
erased. -/
def setRange (er : Nat → Int) (a k : Nat) : Nat → Int :=
  fun j => if a ≤ j ∧ j < a + k then 1 else er j

/-- Events of one successful generic erase with trigger register
`NRF52_NVMC_ERASEPAGE_ADDR` and trigger value `off`. -/
def pageEraseEvts (off : Nat) : List Event :=
  [.readU32 NRF52_NVMC_READY_ADDR,
   .writeU32 NRF52_NVMC_CONFIG_ADDR NRF52_NVMC_CONFIG_EEN,
   .writeU32 NRF52_NVMC_ERASEPAGE_ADDR off,
   .readU32 NRF52_NVMC_READY_ADDR,
   .writeU32 NRF52_NVMC_CONFIG_ADDR NRF52_NVMC_CONFIG_REN]

/-- Events of one successful UICR erase. -/
def uicrEraseEvts : List Event :=
  [.readU32 NRF52_NVMC_READY_ADDR,
   .writeU32 NRF52_NVMC_CONFIG_ADDR NRF52_NVMC_CONFIG_EEN,
   .writeU32 NRF52_NVMC_ERASEUICR_ADDR 1,
   .readU32 NRF52_NVMC_READY_ADDR,
   .writeU32 NRF52_NVMC_CONFIG_ADDR NRF52_NVMC_CONFIG_REN]

/-- Events of the erase loop of `nrf52_write_pages` over pages
`[a, a+k)`, given the erase flags at loop entry: a page whose flag is
already 1 produces no events, every other page one generic erase. -/
def eraseEvts (ps : Nat) (er : Nat → Int) : Nat → Nat → List Event
  | _, 0 => []
  | a, k+1 =>
    (if er a = 1 then [] else pageEraseEvts (a * ps)) ++ eraseEvts ps er (a + 1) k

/-- Events of a successful streamed `nrf52_ll_flash_write` when every
allocation succeeds at address 0 on the first try. -/
def llEvts (offset bytes : Nat) : List Event :=
  [.allocWA 32, .writeBuffer 0 32, .allocWA 8192,
   .runAlgo (NRF52_FLASH_BASE_ADDR + offset) bytes, .freeWA 0, .freeWA 0]

/-- Events of `nrf52_write_pages` after its erase loop, under a
well-behaved environment: write-enable, the streamed write, and the
return to read-only mode. -/
def wpTailEvts (start bytes : Nat) : List Event :=
  .readU32 NRF52_NVMC_READY_ADDR ::
    .writeU32 NRF52_NVMC_CONFIG_ADDR NRF52_NVMC_CONFIG_WEN ::
    (llEvts start bytes ++
      [.readU32 NRF52_NVMC_READY_ADDR,
       .writeU32 NRF52_NVMC_CONFIG_ADDR NRF52_NVMC_CONFIG_REN])

/-- Events of the slow word-at-a-time fallback writing `n` words starting
at `offset`: each word write is followed by one ready-poll read. -/
def slowEvts : Nat → Nat → List Event
  | _, 0 => []
  | offset, n+1 => .writeMem offset 4 :: .readU32 NRF52_NVMC_READY_ADDR :: slowEvts (offset + 4) n

/-- Events of `j` unsuccessful ready polls: each read is followed by the
1-time-unit sleep. -/
def busyEvts : Nat → List Event
  | 0 => []
  | m+1 => .readU32 NRF52_NVMC_READY_ADDR :: .sleep :: busyEvts m

/-- The ready poll `k` attempts into a wait started in state `s` observes
a busy (not-ready) value. -/
def busyAt (env : Env) (s : St) (k : Nat) : Prop :=
  ∃ v, env.readU32 (s.trace.length + 2 * k) NRF52_NVMC_READY_ADDR = .ok v ∧ v ≠ NRF52_NVMC_READY

/-- A well-behaved environment: every NVMC poll reports ready, register
and memory accesses succeed, working-area allocation succeeds at address
0, and the streamed write finishes with result `r`. -/
structure GoodEnv (env : Env) (r : Except Err Unit) : Prop where
  read_ready : ∀ t, env.readU32 t NRF52_NVMC_READY_ADDR = .ok NRF52_NVMC_READY
  write_ok : ∀ t a v, env.writeU32 t a v = .ok ()
  readMem_ok : ∀ t a n, env.readMemErr t a n = none
  writeBuffer_ok : ∀ t, env.writeBuffer t = .ok ()
  alloc_zero : ∀ t n, env.allocWA t n = some 0
  run_eq : ∀ t, env.runAlgo t = r

/-- Sizes the buffer-area shrink loop tries before reaching the 256-byte
floor, starting from `size` with `fuel` halvings available. -/
def allocTries : Nat → Nat → List Nat
  | 0, _ => []
  | fuel+1, size =>
    size :: (if size / 2 / 4 * 4 ≤ 256 then [] else allocTries fuel (size / 2 / 4 * 4))

/-- A concrete well-behaved environment. -/
def env0 : Env :=
  { readU32 := fun _ a => if a = NRF52_NVMC_READY_ADDR then .ok 1 else .ok 0,
    writeU32 := fun _ _ _ => .ok (),
    readMemErr := fun _ _ _ => none,
    mem := fun _ => 0,
    writeMem := fun _ _ => .ok (),
    writeBuffer := fun _ => .ok (),
    allocWA := fun _ _ => some 0,
    runAlgo := fun _ => .ok (),
    allocSectors := fun _ => true }

/-- Environment whose ready flag first reads ready at step 200, i.e. on
the 101st poll of a wait started at step 0. -/
def envReadyAt200 : Env :=
  { env0 with readU32 := fun t _ => if t < 200 then .ok 0 else .ok 1 }

/-- Environment whose ready flag never reads ready. -/
def envAllBusy : Env :=
  { env0 with readU32 := fun _ _ => .ok 0 }

/-- Environment in which no working area of any size is available. -/
def envNoWA : Env :=
  { env0 with allocWA := fun _ _ => none }

/-- Environment in which the loader-program working area (32 bytes) is
available but no streaming-buffer working area of any size is. -/
def envNoBuffer : Env :=
  { env0 with allocWA := fun _ sz => if sz = 32 then some 5 else none }

/-- Environment for probing: FICR reports page size 4096 and code size 2
pages. -/
def envFicr : Env :=
  { env0 with
    readU32 := fun _ a =>
      if a = NRF52_FICR_CODEPAGESIZE_ADDR then .ok 4096
      else if a = NRF52_FICR_CODESIZE_ADDR then .ok 2
      else .ok 1 }

/-- A two-page code bank fresh from probing (page size 4096). -/
def bankTwoPages : List Sector :=
  [{ offset := 0, size := 4096, is_erased := -1, is_protected := -1 },
   { offset := 4096, size := 4096, is_erased := -1, is_protected := -1 }]

/-- A one-sector UICR bank fresh from probing (page size 4096). -/
def bankUicrFresh : List Sector :=
  [{ offset := 0, size := 4096, is_erased := -1, is_protected := -1 }]

/-- A one-sector UICR bank whose sector is marked erased. -/
def bankUicrErased : List Sector :=
  [{ offset := 0, size := 4096, is_erased := 1, is_protected := -1 }]

/-- An arbitrary caller buffer used in concrete runs. -/
def bufC : Buf := ⟨fun i => (i + 7) % 256⟩

/-! ## Theorems

### Run lemmas for the monad -/

theorem M.run_bind {α β : Type} (x : M α) (f : α → M β) (env : Env) (s : St) :
    (x >>= f) env s =
      match x env s with
      | .ok a s' => f a env s'
      | .err e s' => .err e s' := rfl

theorem M.run_pure {α : Type} (a : α) (env : Env) (s : St) :
    (Pure.pure a : M α) env s = .ok a s := rfl

theorem M.run_throw {α : Type} (e : Err) (env : Env) (s : St) :
    (M.throw e : M α) env s = .err e s := rfl

theorem M.run_tryCatch {α : Type} (x : M α) (h : Err → M α) (env : Env) (s : St) :
    (tryCatch x h) env s =
      match x env s with
      | .ok a s' => .ok a s'
      | .err e s' => h e env s' := rfl

theorem M.run_ite {α : Type} (c : Prop) [Decidable c] (x y : M α) (env : Env) (s : St) :
    (if c then x else y) env s = if c then x env s else y env s := by
  split <;> rfl

/-! ### Counting lemmas -/

theorem countEvt_nil (e : Event) : countEvt [] e = 0 := rfl

theorem countEvt_cons (x : Event) (xs : List Event) (e : Event) :
    countEvt (x :: xs) e = (if x = e then 1 else 0) + countEvt xs e := rfl

theorem countEvt_append (xs ys : List Event) (e : Event) :
    countEvt (xs ++ ys) e = countEvt xs e + countEvt ys e := by
  induction xs with
  | nil => simp [countEvt]
  | cons x xs ih => simp [countEvt, ih]; omega

theorem countIf_append (xs ys : List Event) (p : Event → Bool) :
    countIf (xs ++ ys) p = countIf xs p + countIf ys p := by
  induction xs with
  | nil => simp [countIf]
  | cons x xs ih => simp [countIf, ih]; omega

/-! ### uint32 arithmetic lemmas -/

theorem u32_eq {n : Nat} (h : n < 4294967296) : u32 n = n := Nat.mod_eq_of_lt h

theorem u32sub_eq {x y : Nat} (hyx : y ≤ x) (hx : x < 4294967296) :
    u32sub x y = x - y := by
  unfold u32sub
  omega

/-! ### Ready-poll lemmas -/

theorem wait_loop_first_ready (fuel : Nat) (env : Env) (s : St)
    (h : env.readU32 s.trace.length NRF52_NVMC_READY_ADDR = .ok NRF52_NVMC_READY) :
    nrf52_wait_loop fuel env s =
      .ok () { s with trace := s.trace ++ [.readU32 NRF52_NVMC_READY_ADDR] } := by
  cases fuel with
  | zero =>
    simp only [nrf52_wait_loop, M.run_bind, target_read_u32, h]
    simp [M.run_ite, M.run_pure]
  | succ n =>
    simp only [nrf52_wait_loop, M.run_bind, target_read_u32, h]
    simp [M.run_ite, M.run_pure]

theorem busyAt_shift (env : Env) (s : St) (x y : Event) (k : Nat) :
    busyAt env { s with trace := s.trace ++ [x, y] } k ↔ busyAt env s (k + 1) := by
  unfold busyAt
  have h : (s.trace ++ [x, y]).length + 2 * k = s.trace.length + 2 * (k + 1) := by
    simp; omega
  simp only [h]

theorem wait_loop_busy (env : Env) (fuel : Nat) :
    ∀ s : St, (∀ k, k ≤ fuel → busyAt env s k) →
      nrf52_wait_loop fuel env s = .err .flashBusy { s with trace := s.trace ++ busyEvts (fuel + 1) } := by
  induction fuel with
  | zero =>
    intro s hb
    obtain ⟨v, hv, hne⟩ := hb 0 (by omega)
    simp only [Nat.mul_zero, Nat.add_zero] at hv
    simp only [nrf52_wait_loop, M.run_bind, target_read_u32, hv]
    simp [M.run_ite, hne, M.run_bind, msleep, M.run_throw, busyEvts]
  | succ n ih =>
    intro s hb
    obtain ⟨v, hv, hne⟩ := hb 0 (by omega)
    simp only [Nat.mul_zero, Nat.add_zero] at hv
    simp only [nrf52_wait_loop, M.run_bind, target_read_u32, hv]
    simp only [M.run_ite, if_neg hne, M.run_bind, msleep]
    rw [show (({ s with trace := s.trace ++ [Event.readU32 NRF52_NVMC_READY_ADDR] } : St).trace ++ [Event.sleep]) = s.trace ++ [Event.readU32 NRF52_NVMC_READY_ADDR, Event.sleep] by simp]
    rw [ih _ (fun k hk => (busyAt_shift env s _ _ k).mpr (hb (k + 1) (by omega)))]
    simp [busyEvts]

theorem wait_loop_ready_at (env : Env) (fuel : Nat) :
    ∀ (s : St) (j : Nat), j ≤ fuel → (∀ k, k < j → busyAt env s k) →
      env.readU32 (s.trace.length + 2 * j) NRF52_NVMC_READY_ADDR = .ok NRF52_NVMC_READY →
      nrf52_wait_loop fuel env s =
        .ok () { s with trace := s.trace ++ busyEvts j ++ [.readU32 NRF52_NVMC_READY_ADDR] } := by
  induction fuel with
  | zero =>
    intro s j hj hb hr
    interval_cases j
    simp only [Nat.mul_zero, Nat.add_zero] at hr
    rw [wait_loop_first_ready 0 env s hr]
    simp [busyEvts]
  | succ n ih =>
    intro s j hj hb hr
    cases j with
    | zero =>
      simp only [Nat.mul_zero, Nat.add_zero] at hr
      rw [wait_loop_first_ready (n + 1) env s hr]
      simp [busyEvts]
    | succ m =>
      obtain ⟨v, hv, hne⟩ := hb 0 (by omega)
      simp only [Nat.mul_zero, Nat.add_zero] at hv
      simp only [nrf52_wait_loop, M.run_bind, target_read_u32, hv]
      simp only [M.run_ite, if_neg hne, M.run_bind, msleep]
      rw [show (({ s with trace := s.trace ++ [Event.readU32 NRF52_NVMC_READY_ADDR] } : St).trace ++ [Event.sleep]) = s.trace ++ [Event.readU32 NRF52_NVMC_READY_ADDR, Event.sleep] by simp]
      rw [ih _ m (by omega)
        (fun k hk => (busyAt_shift env s _ _ k).mpr (hb (k + 1) (by omega)))
        (by
          have h : (s.trace ++ [Event.readU32 NRF52_NVMC_READY_ADDR, Event.sleep]).length + 2 * m = s.trace.length + 2 * (m + 1) := by
            simp; omega
          simp only [h]
          exact hr)]
      simp [busyEvts]

theorem wait_loop_err_at (env : Env) (fuel : Nat) :
    ∀ (s : St) (j : Nat) (e : Err), j ≤ fuel → (∀ k, k < j → busyAt env s k) →
      env.readU32 (s.trace.length + 2 * j) NRF52_NVMC_READY_ADDR = .error e →
      nrf52_wait_loop fuel env s =
        .err e { s with trace := s.trace ++ busyEvts j ++ [.readU32 NRF52_NVMC_READY_ADDR] } := by
  induction fuel with
  | zero =>
    intro s j e hj hb hr
    interval_cases j
    simp only [Nat.mul_zero, Nat.add_zero] at hr
    simp only [nrf52_wait_loop, M.run_bind, target_read_u32, hr]
    simp [busyEvts]
  | succ n ih =>
    intro s j e hj hb hr
    cases j with
    | zero =>
      simp only [Nat.mul_zero, Nat.add_zero] at hr
      simp only [nrf52_wait_loop, M.run_bind, target_read_u32, hr]
      simp [busyEvts]
    | succ m =>
      obtain ⟨v, hv, hne⟩ := hb 0 (by omega)
      simp only [Nat.mul_zero, Nat.add_zero] at hv
      simp only [nrf52_wait_loop, M.run_bind, target_read_u32, hv]
      simp only [M.run_ite, if_neg hne, M.run_bind, msleep]
      rw [show (({ s with trace := s.trace ++ [Event.readU32 NRF52_NVMC_READY_ADDR] } : St).trace ++ [Event.sleep]) = s.trace ++ [Event.readU32 NRF52_NVMC_READY_ADDR, Event.sleep] by simp]
      rw [ih _ m e (by omega)
        (fun k hk => (busyAt_shift env s _ _ k).mpr (hb (k + 1) (by omega)))
        (by
          have h : (s.trace ++ [Event.readU32 NRF52_NVMC_READY_ADDR, Event.sleep]).length + 2 * m = s.trace.length + 2 * (m + 1) := by
            simp; omega
          simp only [h]
          exact hr)]
      simp [busyEvts]

theorem countEvt_busyEvts (m : Nat) :
    countEvt (busyEvts m) (.readU32 NRF52_NVMC_READY_ADDR) = m := by
  induction m with
  | zero => rfl
  | succ n ih => simp [busyEvts, countEvt, ih]; omega

/-! ### Claim C6 -/

/-- C6 counterexample.  The claim says the ready-wait reads the ready
flag "up to 100 times" and returns the busy/timeout error if the flag is
still not ready after all attempts.  Under an environment whose ready
flag becomes ready only at step 200 — i.e. only on the 101st read of a
wait started at step 0, every earlier poll reading busy — the wait
nevertheless succeeds, and its trace holds 101 reads of the ready
register: the loop polls 101 times, not 100. -/
theorem nrf52_wait_for_nvmc_101_reads :
    (nrf52_wait_for_nvmc envReadyAt200 ⟨[], []⟩).isOk = true
    ∧ countEvt (nrf52_wait_for_nvmc envReadyAt200 ⟨[], []⟩).st.trace
        (.readU32 NRF52_NVMC_READY_ADDR) = 101 := by
  have h : nrf52_wait_for_nvmc envReadyAt200 ⟨[], []⟩ =
      .ok () { (⟨[], []⟩ : St) with
        trace := (⟨[], []⟩ : St).trace ++ busyEvts 100 ++ [.readU32 NRF52_NVMC_READY_ADDR] } :=
    wait_loop_ready_at envReadyAt200 100 ⟨[], []⟩ 100 (Nat.le_refl 100)
      (fun k hk => ⟨0, by
          show envReadyAt200.readU32 ((⟨[], []⟩ : St).trace.length + 2 * k)
              NRF52_NVMC_READY_ADDR = .ok 0
          simp only [envReadyAt200]
          rw [if_pos (by simp; omega)], by decide⟩)
      (by
        show envReadyAt200.readU32 ((⟨[], []⟩ : St).trace.length + 2 * 100)
            NRF52_NVMC_READY_ADDR = .ok NRF52_NVMC_READY
        simp [envReadyAt200, NRF52_NVMC_READY])
  rw [h]
  refine ⟨rfl, ?_⟩
  simp only [Res.st]
  rw [show ((⟨[], []⟩ : St).trace ++ busyEvts 100 ++ [Event.readU32 NRF52_NVMC_READY_ADDR]) =
      busyEvts 100 ++ [Event.readU32 NRF52_NVMC_READY_ADDR] by simp]
  rw [countEvt_append, countEvt_busyEvts]
  decide

/-- C6 (amended): the NVMC ready-wait polls the 1-bit ready flag at the
fixed ready-register address up to 101 times (the `do … while (timeout--)`
loop with `timeout = 100` runs its body 101 times), sleeping 1 time unit
after each unsuccessful read; it returns success as soon as a read yields
the ready value, returns the busy/timeout error `Err.flashBusy` (distinct
from an I/O error) if all 101 reads yield a not-ready value, and
propagates a register-read failure immediately as that specific error. -/
theorem nrf52_wait_for_nvmc_contract (env : Env) (s : St) :
    ((∀ k, k ≤ 100 → busyAt env s k) →
      nrf52_wait_for_nvmc env s =
        .err .flashBusy { s with trace := s.trace ++ busyEvts 101 })
    ∧ (∀ j, j ≤ 100 → (∀ k, k < j → busyAt env s k) →
        env.readU32 (s.trace.length + 2 * j) NRF52_NVMC_READY_ADDR = .ok NRF52_NVMC_READY →
        nrf52_wait_for_nvmc env s =
          .ok () { s with trace := s.trace ++ busyEvts j ++ [.readU32 NRF52_NVMC_READY_ADDR] })
    ∧ (∀ j e, j ≤ 100 → (∀ k, k < j → busyAt env s k) →
        env.readU32 (s.trace.length + 2 * j) NRF52_NVMC_READY_ADDR = .error e →
        nrf52_wait_for_nvmc env s =
          .err e { s with trace := s.trace ++ busyEvts j ++ [.readU32 NRF52_NVMC_READY_ADDR] }) := by
  refine ⟨?_, ?_, ?_⟩
  · intro hb
    exact wait_loop_busy env 100 s hb
  · intro j hj hb hr
    exact wait_loop_ready_at env 100 s j hj hb hr
  · intro j e hj hb hr
    exact wait_loop_err_at env 100 s j e hj hb hr

/-- Witness for C6 (amended): a wait that reads ready on the first poll
succeeds after one read, and a wait whose polls always read busy fails
with the busy/timeout error after 101 polls. -/
theorem nrf52_wait_for_nvmc_contract_witness :
    nrf52_wait_for_nvmc env0 ⟨[], []⟩ =
      .ok () ⟨[], [.readU32 NRF52_NVMC_READY_ADDR]⟩
    ∧ nrf52_wait_for_nvmc envAllBusy ⟨[], []⟩ =
        .err .flashBusy ⟨[], busyEvts 101⟩ := by
  constructor
  · exact (nrf52_wait_for_nvmc_contract env0 ⟨[], []⟩).2.1 0 (by omega)
      (fun k hk => absurd hk (by omega)) rfl
  · exact (nrf52_wait_for_nvmc_contract envAllBusy ⟨[], []⟩).1
      (fun k _ => ⟨0, rfl, by decide⟩)

/-! ### Claim C2 -/

theorem wait_loop_st_trace (env : Env) : ∀ (fuel : Nat) (s : St), ∃ rest,
    ((nrf52_wait_loop fuel env s).st).trace =
      s.trace ++ .readU32 NRF52_NVMC_READY_ADDR :: rest := by
  intro fuel
  induction fuel with
  | zero =>
    intro s
    cases h : env.readU32 s.trace.length NRF52_NVMC_READY_ADDR with
    | ok v =>
      by_cases hv : v = NRF52_NVMC_READY
      · exact ⟨[], by simp [nrf52_wait_loop, M.run_bind, target_read_u32, h, M.run_ite, hv,
          M.run_pure, Res.st]⟩
      · exact ⟨[.sleep], by simp [nrf52_wait_loop, M.run_bind, target_read_u32, h, M.run_ite, hv,
          msleep, M.run_throw, Res.st]⟩
    | error e =>
      exact ⟨[], by simp [nrf52_wait_loop, M.run_bind, target_read_u32, h, Res.st]⟩
  | succ n ih =>
    intro s
    cases h : env.readU32 s.trace.length NRF52_NVMC_READY_ADDR with
    | ok v =>
      by_cases hv : v = NRF52_NVMC_READY
      · exact ⟨[], by simp [nrf52_wait_loop, M.run_bind, target_read_u32, h, M.run_ite, hv,
          M.run_pure, Res.st]⟩
      · obtain ⟨rest, hrest⟩ :=
          ih { s with trace := s.trace ++ [.readU32 NRF52_NVMC_READY_ADDR, .sleep] }
        refine ⟨.sleep :: .readU32 NRF52_NVMC_READY_ADDR :: rest, ?_⟩
        simp only [nrf52_wait_loop, M.run_bind, target_read_u32, h, M.run_ite, if_neg hv, msleep]
        rw [show ({ s with trace := s.trace ++ [Event.readU32 NRF52_NVMC_READY_ADDR] } : St).trace
              ++ [Event.sleep] = s.trace ++ [Event.readU32 NRF52_NVMC_READY_ADDR, Event.sleep]
            by simp]
        rw [hrest]
        simp
    | error e =>
      exact ⟨[], by simp [nrf52_wait_loop, M.run_bind, target_read_u32, h, Res.st]⟩

theorem write_u32_st (a v : Nat) (env : Env) (s : St) :
    ((target_write_u32 a v env s).st).trace = s.trace ++ [.writeU32 a v] := by
  cases h : env.writeU32 s.trace.length a v with
  | ok u =>
    simp [target_write_u32, M.run_bind, target_write_u32_res, h, M.run_pure, Res.st]
  | error e =>
    simp [target_write_u32, M.run_bind, target_write_u32_res, h, M.run_throw, Res.st]

/-- Whatever the environment does, entering `nrf52_nvmc_read_only` is
observable: its first external operation is the ready-poll read. -/
theorem read_only_attempt (env : Env) (s : St) : ∃ rest,
    ((nrf52_nvmc_read_only env s).st).trace =
      s.trace ++ .readU32 NRF52_NVMC_READY_ADDR :: rest := by
  obtain ⟨rest, hrest⟩ := wait_loop_st_trace env 100 s
  rw [show nrf52_wait_loop 100 = nrf52_wait_for_nvmc from rfl] at hrest
  cases hw : nrf52_wait_for_nvmc env s with
  | ok u s1 =>
    rw [hw] at hrest
    simp only [Res.st] at hrest
    refine ⟨rest ++ [.writeU32 NRF52_NVMC_CONFIG_ADDR NRF52_NVMC_CONFIG_REN], ?_⟩
    have : ((nrf52_nvmc_read_only env s).st).trace =
        ((target_write_u32 NRF52_NVMC_CONFIG_ADDR NRF52_NVMC_CONFIG_REN env s1).st).trace := by
      simp only [nrf52_nvmc_read_only, M.run_bind, hw]
    rw [this, write_u32_st, hrest]
    simp
  | err e s1 =>
    rw [hw] at hrest
    simp only [Res.st] at hrest
    refine ⟨rest, ?_⟩
    have : (nrf52_nvmc_read_only env s) = .err e s1 := by
      simp only [nrf52_nvmc_read_only, M.run_bind, hw]
    rw [this]
    exact hrest

/-- C2: in `nrf52_nvmc_generic_erase`, once erase mode has been enabled
successfully, the function continues into `nrf52_nvmc_read_only`
unconditionally — the run after the erase-enable is literally the
read-only transition run from the state in which the trigger write has
merely been attempted, whatever result the environment gave that write —
and in particular the trace always shows the trigger write followed by
the read-only transition's first ready-poll read.  A failed trigger write
therefore never leaves the controller in erase-enabled mode. -/
theorem nrf52_nvmc_generic_erase_returns_read_only (env : Env) (er ev : Nat) (s s1 : St)
    (h : nrf52_nvmc_erase_enable env s = .ok () s1) :
    nrf52_nvmc_generic_erase er ev env s =
      nrf52_nvmc_read_only env { s1 with trace := s1.trace ++ [.writeU32 er ev] }
    ∧ ∃ rest, ((nrf52_nvmc_generic_erase er ev env s).st).trace =
        s1.trace ++ .writeU32 er ev :: .readU32 NRF52_NVMC_READY_ADDR :: rest := by
  have h1 : nrf52_nvmc_generic_erase er ev env s =
      nrf52_nvmc_read_only env { s1 with trace := s1.trace ++ [.writeU32 er ev] } := by
    simp only [nrf52_nvmc_generic_erase, M.run_bind, h, target_write_u32_res]
  refine ⟨h1, ?_⟩
  rw [h1]
  obtain ⟨rest, hrest⟩ := read_only_attempt env { s1 with trace := s1.trace ++ [.writeU32 er ev] }
  exact ⟨rest, by rw [hrest]; simp⟩

/-- Witness for C2: a concrete erase-all trigger under the well-behaved
environment, started from the empty trace. -/
theorem nrf52_nvmc_generic_erase_returns_read_only_witness :
    nrf52_nvmc_generic_erase NRF52_NVMC_ERASEALL_ADDR 1 env0 ⟨[], []⟩ =
      nrf52_nvmc_read_only env0
        ⟨[], [.readU32 NRF52_NVMC_READY_ADDR,
              .writeU32 NRF52_NVMC_CONFIG_ADDR NRF52_NVMC_CONFIG_EEN,
              .writeU32 NRF52_NVMC_ERASEALL_ADDR 1]⟩
    ∧ ∃ rest, ((nrf52_nvmc_generic_erase NRF52_NVMC_ERASEALL_ADDR 1 env0 ⟨[], []⟩).st).trace =
        [.readU32 NRF52_NVMC_READY_ADDR,
         .writeU32 NRF52_NVMC_CONFIG_ADDR NRF52_NVMC_CONFIG_EEN,
         .writeU32 NRF52_NVMC_ERASEALL_ADDR 1,
         .readU32 NRF52_NVMC_READY_ADDR] ++ rest := by
  have h := nrf52_nvmc_generic_erase_returns_read_only env0 NRF52_NVMC_ERASEALL_ADDR 1
    ⟨[], []⟩
    ⟨[], [.readU32 NRF52_NVMC_READY_ADDR, .writeU32 NRF52_NVMC_CONFIG_ADDR NRF52_NVMC_CONFIG_EEN]⟩
    (by decide)
  exact ⟨h.1, h.2⟩

/-! ### Runs under a well-behaved environment -/

theorem wait_first_ready (env : Env) (s : St)
    (h : env.readU32 s.trace.length NRF52_NVMC_READY_ADDR = .ok NRF52_NVMC_READY) :
    nrf52_wait_for_nvmc env s =
      .ok () { s with trace := s.trace ++ [.readU32 NRF52_NVMC_READY_ADDR] } :=
  wait_loop_first_ready 100 env s h

theorem wait_good {env : Env} {r : Except Err Unit} (h : GoodEnv env r) (s : St) :
    nrf52_wait_for_nvmc env s =
      .ok () { s with trace := s.trace ++ [.readU32 NRF52_NVMC_READY_ADDR] } :=
  wait_loop_first_ready 100 env s (h.read_ready _)

theorem write_u32_good {env : Env} {r : Except Err Unit} (h : GoodEnv env r) (a v : Nat) (s : St) :
    target_write_u32 a v env s = .ok () { s with trace := s.trace ++ [.writeU32 a v] } := by
  simp [target_write_u32, M.run_bind, target_write_u32_res, h.write_ok, M.run_pure]

theorem erase_enable_good {env : Env} {r : Except Err Unit} (h : GoodEnv env r) (s : St) :
    nrf52_nvmc_erase_enable env s =
      .ok () { s with trace := s.trace ++ [.readU32 NRF52_NVMC_READY_ADDR,
        .writeU32 NRF52_NVMC_CONFIG_ADDR NRF52_NVMC_CONFIG_EEN] } := by
  simp only [nrf52_nvmc_erase_enable, M.run_bind, wait_good h, write_u32_good h]
  simp

theorem write_enable_good {env : Env} {r : Except Err Unit} (h : GoodEnv env r) (s : St) :
    nrf52_nvmc_write_enable env s =
      .ok () { s with trace := s.trace ++ [.readU32 NRF52_NVMC_READY_ADDR,
        .writeU32 NRF52_NVMC_CONFIG_ADDR NRF52_NVMC_CONFIG_WEN] } := by
  simp only [nrf52_nvmc_write_enable, M.run_bind, wait_good h, write_u32_good h]
  simp

theorem read_only_good {env : Env} {r : Except Err Unit} (h : GoodEnv env r) (s : St) :
    nrf52_nvmc_read_only env s =
      .ok () { s with trace := s.trace ++ [.readU32 NRF52_NVMC_READY_ADDR,
        .writeU32 NRF52_NVMC_CONFIG_ADDR NRF52_NVMC_CONFIG_REN] } := by
  simp only [nrf52_nvmc_read_only, M.run_bind, wait_good h, write_u32_good h]
  simp

theorem generic_erase_good {env : Env} {r : Except Err Unit} (h : GoodEnv env r)
    (er ev : Nat) (s : St) :
    nrf52_nvmc_generic_erase er ev env s =
      .ok () { s with trace := s.trace ++
        [.readU32 NRF52_NVMC_READY_ADDR,
         .writeU32 NRF52_NVMC_CONFIG_ADDR NRF52_NVMC_CONFIG_EEN,
         .writeU32 er ev,
         .readU32 NRF52_NVMC_READY_ADDR,
         .writeU32 NRF52_NVMC_CONFIG_ADDR NRF52_NVMC_CONFIG_REN] } := by
  simp only [nrf52_nvmc_generic_erase, M.run_bind, erase_enable_good h, target_write_u32_res,
    read_only_good h]
  simp

theorem erase_page_good_code {env : Env} {r : Except Err Unit} (h : GoodEnv env r)
    (ps i : Nat) (s : St) (hprot : (s.sectors.getD i default).is_protected ≠ 1) :
    nrf52_erase_page 0 ps i env s =
      .ok () { s with
        sectors := s.sectors.set i { s.sectors.getD i default with is_erased := 1 },
        trace := s.trace ++ pageEraseEvts (s.sectors.getD i default).offset } := by
  simp only [nrf52_erase_page, M.run_bind, getSectors, M.run_ite, if_neg hprot,
    if_neg (show (0 : Nat) ≠ NRF52_UICR_BASE_ADDR by decide), generic_erase_good h,
    setSectorErased, pageEraseEvts]

theorem erase_page_good_uicr {env : Env} {r : Except Err Unit} (h : GoodEnv env r)
    (ps i : Nat) (s : St) (hprot : (s.sectors.getD i default).is_protected ≠ 1) :
    nrf52_erase_page NRF52_UICR_BASE_ADDR ps i env s =
      .ok () { s with
        sectors := s.sectors.set i { s.sectors.getD i default with is_erased := 1 },
        trace := s.trace ++ uicrEraseEvts } := by
  simp only [nrf52_erase_page, M.run_bind, getSectors, M.run_ite, if_neg hprot, if_pos rfl,
    generic_erase_good h, setSectorErased, uicrEraseEvts]
  simp

theorem slow_writes_good (env : Env)
    (hw : ∀ t a, env.writeMem t a = .ok ())
    (hr : ∀ t, env.readU32 t NRF52_NVMC_READY_ADDR = .ok NRF52_NVMC_READY) :
    ∀ (n offset : Nat) (s : St),
      nrf52_slow_writes offset n env s = .ok () { s with trace := s.trace ++ slowEvts offset n } := by
  intro n
  induction n with
  | zero => intro offset s; simp [nrf52_slow_writes, M.run_pure, slowEvts]
  | succ m ih =>
    intro offset s
    simp only [nrf52_slow_writes, M.run_bind, target_write_memory, hw]
    rw [wait_first_ready env _ (hr _)]
    simp [ih, slowEvts]

theorem alloc_buffer_first {env : Env} {a : Nat} (fuel size : Nat) (s : St)
    (h : env.allocWA s.trace.length size = some a) :
    nrf52_alloc_buffer (fuel + 1) size env s =
      .ok (some (a, size)) { s with trace := s.trace ++ [.allocWA size] } := by
  simp [nrf52_alloc_buffer, M.run_bind, target_alloc_working_area, h, M.run_pure]

/-- Successful streamed write under a well-behaved environment: program
area and an 8192-byte buffer area are allocated on the first try, the
loader program is installed, the streamed run returns `r`, both areas are
freed, and `r` is surfaced. -/
theorem ll_flash_write_good {env : Env} {r : Except Err Unit} (h : GoodEnv env r)
    (offset bytes : Nat) (buffer : Buf) (s : St) (hb : bytes % 4 = 0) :
    nrf52_ll_flash_write offset buffer bytes env s =
      match r with
      | .ok _ => .ok () { s with trace := s.trace ++ llEvts offset bytes }
      | .error e => .err e { s with trace := s.trace ++ llEvts offset bytes } := by
  have hlen : nrf52_flash_write_code.length = 32 := by decide
  simp only [nrf52_ll_flash_write, M.run_ite, if_neg (by omega : ¬bytes % 4 ≠ 0), M.run_bind,
    target_alloc_working_area, h.alloc_zero]
  rw [show (16 : Nat) = 15 + 1 from rfl]
  simp only [target_write_buffer, h.writeBuffer_ok]
  rw [alloc_buffer_first 15 8192 _ (h.alloc_zero _ _)]
  simp only [target_run_flash_async_algorithm, h.run_eq, target_free_working_area, M.run_bind,
    M.run_pure, M.run_throw]
  cases r with
  | ok u => simp [llEvts, hlen, M.run_pure]
  | error e => simp [llEvts, hlen, M.run_throw]

/-! ### Sector-table shape lemmas -/

theorem sectorsShape_congr (ps : Nat) :
    ∀ (n c : Nat) (er er2 : Nat → Int), (∀ j, c ≤ j → j < c + n → er j = er2 j) →
      sectorsShape ps er c n = sectorsShape ps er2 c n := by
  intro n
  induction n with
  | zero => intro c er er2 _; rfl
  | succ m ih =>
    intro c er er2 h
    simp only [sectorsShape]
    rw [h c (Nat.le_refl c) (by omega), ih (c + 1) er er2 (fun j h1 h2 => h j (by omega) (by omega))]

theorem sectorsShape_length (ps : Nat) (er : Nat → Int) :
    ∀ (n c : Nat), (sectorsShape ps er c n).length = n := by
  intro n
  induction n with
  | zero => intro c; rfl
  | succ m ih => intro c; simp [sectorsShape, ih]

theorem sectorsShape_getD (ps : Nat) (er : Nat → Int) :
    ∀ (n c a : Nat), c ≤ a → a < c + n →
      (sectorsShape ps er c n).getD (a - c) default =
        { offset := a * ps, size := ps, is_erased := er a, is_protected := -1 } := by
  intro n
  induction n with
  | zero => intro c a h1 h2; omega
  | succ m ih =>
    intro c a h1 h2
    by_cases hac : a = c
    · subst hac
      simp [sectorsShape]
    · rw [show a - c = (a - (c + 1)) + 1 by omega]
      simp only [sectorsShape, List.getD_cons_succ]
      exact ih (c + 1) a (by omega) (by omega)

theorem sectorsShape_set (ps : Nat) :
    ∀ (n c a : Nat) (er : Nat → Int), c ≤ a → a < c + n →
      (sectorsShape ps er c n).set (a - c)
          { offset := a * ps, size := ps, is_erased := 1, is_protected := -1 } =
        sectorsShape ps (fun j => if j = a then 1 else er j) c n := by
  intro n
  induction n with
  | zero => intro c a er h1 h2; omega
  | succ m ih =>
    intro c a er h1 h2
    by_cases hac : a = c
    · subst hac
      simp only [sectorsShape, Nat.sub_self, List.set_cons_zero, if_true]
      rw [sectorsShape_congr ps m (a + 1) er (fun j => if j = a then 1 else er j)
        (fun j hj _ => by
          show er j = if j = a then 1 else er j
          rw [if_neg (by omega)])]
    · rw [show a - c = (a - (c + 1)) + 1 by omega]
      simp only [sectorsShape, List.set_cons_succ]
      rw [if_neg (by omega), ih (c + 1) a er (by omega) (by omega)]

theorem find_shape (ps : Nat) (er : Nat → Int) (hps : 0 < ps) :
    ∀ (n c addr : Nat), (c + n) * ps < 4294967296 → c * ps ≤ addr →
      findSectorAux ps addr (sectorsShape ps er c n) c =
        if addr < (c + n) * ps then some (addr / ps) else none := by
  intro n
  induction n with
  | zero =>
    intro c addr hlt hc
    simp only [sectorsShape, findSectorAux, Nat.add_zero]
    rw [if_neg (Nat.not_lt.mpr hc)]
  | succ m ih =>
    intro c addr hlt hc
    have hstep : c * ps + ps = (c + 1) * ps := by ring
    have hmono : (c + 1) * ps ≤ (c + (m + 1)) * ps := Nat.mul_le_mul_right ps (by omega)
    have hu : u32 (c * ps + ps) = (c + 1) * ps := by
      rw [hstep]; exact u32_eq (lt_of_le_of_lt hmono hlt)
    by_cases hx : addr < (c + 1) * ps
    · simp only [sectorsShape, findSectorAux]
      rw [if_pos ⟨hc, by rw [hu]; exact hx⟩, if_pos (lt_of_lt_of_le hx hmono)]
      exact congrArg some (Nat.div_eq_of_lt_le hc hx).symm
    · simp only [sectorsShape, findSectorAux]
      rw [if_neg (fun hand => hx (by rw [hu] at hand; exact hand.2))]
      have hc2 : (c + 1) * ps ≤ addr := Nat.le_of_not_lt hx
      rw [ih (c + 1) addr (by rw [show c + 1 + m = c + (m + 1) by omega]; exact hlt) hc2]
      rw [show c + 1 + m = c + (m + 1) by omega]

theorem buildSectors_eq_shape (ps : Nat) :
    ∀ (n c : Nat), (c + n) * ps < 4294967296 →
      buildSectors ps c n = sectorsShape ps (fun _ => -1) c n := by
  intro n
  induction n with
  | zero => intro c _; rfl
  | succ m ih =>
    intro c hlt
    simp only [buildSectors, sectorsShape]
    rw [u32_eq (lt_of_le_of_lt (Nat.mul_le_mul_right ps (by omega : c ≤ c + (m + 1))) hlt),
      ih (c + 1) (by rw [show c + 1 + m = c + (m + 1) by omega]; exact hlt)]

/-! ### Claim C7 -/

/-- C7: on a probe-shaped sector table of `n` sectors of page size `ps`
(the shape produced for both regions, with any erase flags), the sector
lookup succeeds exactly for addresses in the half-open region range
`[0, n*ps)`; and when `nrf52_write_pages` asks for a page outside that
range, the lookup's not-found answer is reported to the caller as the
invalid-sector error, before any external operation. -/
theorem nrf52_find_sector_iff :
    (∀ (ps n : Nat) (er : Nat → Int) (addr : Nat), 0 < ps → n * ps < 4294967296 →
      ((nrf52_find_sector_by_address ps addr (sectorsShape ps er 0 n)).isSome ↔ addr < n * ps))
    ∧ (∀ (env : Env) (tr : List Event) (ps n a : Nat) (er : Nat → Int) (buffer : Buf),
        0 < ps → n * ps < 4294967296 → n ≤ a → (a + 1) * ps < 4294967296 →
        nrf52_write_pages 0 ps (a * ps) ((a + 1) * ps) buffer env ⟨sectorsShape ps er 0 n, tr⟩ =
          .err .sectorInvalid ⟨sectorsShape ps er 0 n, tr⟩) := by
  have hfind : ∀ (ps n : Nat) (er : Nat → Int) (addr : Nat), 0 < ps → n * ps < 4294967296 →
      nrf52_find_sector_by_address ps addr (sectorsShape ps er 0 n) =
        if addr < n * ps then some (addr / ps) else none := by
    intro ps n er addr hps hlt
    unfold nrf52_find_sector_by_address
    rw [find_shape ps er hps n 0 addr (by simpa using hlt) (by simp)]
    simp
  constructor
  · intro ps n er addr hps hlt
    rw [hfind ps n er addr hps hlt]
    by_cases h : addr < n * ps
    · rw [if_pos h]; simpa using h
    · rw [if_neg h]; simpa using h
  · intro env tr ps n a er buffer hps hlt hna hlt2
    have hk : u32sub ((a + 1) * ps) (a * ps) / ps = 1 := by
      rw [u32sub_eq (Nat.mul_le_mul_right ps (by omega)) hlt2]
      rw [Nat.add_mul, Nat.one_mul, Nat.add_sub_cancel_left, Nat.div_self hps]
    simp only [nrf52_write_pages, M.run_ite,
      if_neg (show ¬(a * ps % ps ≠ 0) by simp [Nat.mul_mod_left]),
      if_neg (show ¬((a + 1) * ps % ps ≠ 0) by simp [Nat.mul_mod_left]),
      M.run_bind, hk]
    simp only [nrf52_erase_range, M.run_bind, getSectors]
    rw [hfind ps n er (a * ps) hps hlt,
      if_neg (Nat.not_lt.mpr (Nat.mul_le_mul_right ps hna))]
    rfl

/-- Witness for C7: with two 4096-byte sectors, address 5000 is found
(5000 < 8192) while address 8192 is not, and a page write starting at
page 2 of a two-page bank fails with the invalid-sector error. -/
theorem nrf52_find_sector_iff_witness :
    (((nrf52_find_sector_by_address 4096 5000
        (sectorsShape 4096 (fun _ => -1) 0 2)).isSome ↔ (5000 : Nat) < 2 * 4096)
      ∧ ((nrf52_find_sector_by_address 4096 8192
        (sectorsShape 4096 (fun _ => -1) 0 2)).isSome ↔ (8192 : Nat) < 2 * 4096))
    ∧ nrf52_write_pages 0 4096 (2 * 4096) ((2 + 1) * 4096) bufC env0
        ⟨sectorsShape 4096 (fun _ => -1) 0 2, []⟩ =
      .err .sectorInvalid ⟨sectorsShape 4096 (fun _ => -1) 0 2, []⟩ := by
  refine ⟨⟨?_, ?_⟩, ?_⟩
  · exact nrf52_find_sector_iff.1 4096 2 (fun _ => -1) 5000 (by omega) (by omega)
  · exact nrf52_find_sector_iff.1 4096 2 (fun _ => -1) 8192 (by omega) (by omega)
  · exact nrf52_find_sector_iff.2 env0 [] 4096 2 2 (fun _ => -1) bufC
      (by omega) (by omega) (by omega) (by omega)

/-! ### Claim C8 -/

/-- C8: a successful probe of the code region builds a sector table
whose sectors are contiguous at offsets `i * ps` of size `ps` each (so
their union is exactly the declared bank size `cs * ps`), whose count is
the bank size divided by the page size, and whose erase and protection
statuses are all unknown (-1); a successful probe of the config region
builds exactly one such sector covering the whole one-page region. -/
theorem nrf52_probe_spec (env : Env) (s : St) (ps cs : Nat)
    (hps : 0 < ps) (hlt : cs * ps < 4294967296)
    (h1 : env.readU32 s.trace.length NRF52_FICR_CODEPAGESIZE_ADDR = .ok ps)
    (h2 : env.readU32 (s.trace.length + 1) NRF52_FICR_CODESIZE_ADDR = .ok cs)
    (ha : ∀ n, env.allocSectors n = true) :
    (nrf52_probe NRF52_FLASH_BASE_ADDR env s =
      .ok (ps, cs * ps) { s with
        sectors := sectorsShape ps (fun _ => -1) 0 cs,
        trace := s.trace ++
          [.readU32 NRF52_FICR_CODEPAGESIZE_ADDR, .readU32 NRF52_FICR_CODESIZE_ADDR] })
    ∧ (sectorsShape ps (fun _ => -1) 0 cs).length = cs * ps / ps
    ∧ (sectorsShape ps (fun _ => -1) 0 cs).length * ps = cs * ps
    ∧ (∀ i, i < cs → (sectorsShape ps (fun _ => -1) 0 cs).getD i default =
        { offset := i * ps, size := ps, is_erased := -1, is_protected := -1 })
    ∧ (nrf52_probe NRF52_UICR_BASE_ADDR env s =
        .ok (ps, ps) { s with
          sectors := [{ offset := 0, size := ps, is_erased := -1, is_protected := -1 }],
          trace := s.trace ++
            [.readU32 NRF52_FICR_CODEPAGESIZE_ADDR, .readU32 NRF52_FICR_CODESIZE_ADDR] }) := by
  have hlen2 : ∀ x : Event, (s.trace ++ [x]).length = s.trace.length + 1 := by simp
  have hnum : u32 (cs * ps) / ps = cs := by
    rw [u32_eq hlt, Nat.mul_div_cancel cs hps]
  have hbuild : buildSectors ps 0 cs = sectorsShape ps (fun _ => -1) 0 cs :=
    buildSectors_eq_shape ps cs 0 (by simpa using hlt)
  refine ⟨?_, ?_, ?_, ?_, ?_⟩
  · simp only [nrf52_probe, M.run_bind, target_read_u32, h1]
    rw [hlen2, h2]
    simp only [M.run_ite, if_pos rfl, hnum, ha, if_true, M.run_bind, setSectors,
      nrf52_protect_check, M.run_pure, hbuild, u32_eq hlt]
    simp
    rw [Nat.mul_div_cancel cs hps]
    exact hbuild
  · rw [sectorsShape_length, Nat.mul_div_cancel cs hps]
  · rw [sectorsShape_length, Nat.mul_comm]
  · intro i hi
    have h := sectorsShape_getD ps (fun _ => -1) cs 0 i (Nat.zero_le i) (by omega)
    rw [Nat.sub_zero] at h
    exact h
  · simp only [nrf52_probe, M.run_bind, target_read_u32, h1]
    rw [hlen2, h2]
    simp only [M.run_ite, if_neg (show ¬NRF52_UICR_BASE_ADDR = NRF52_FLASH_BASE_ADDR by decide),
      ha, if_true, M.run_bind, setSectors, M.run_pure]
    simp

/-- Witness for C8: probing both regions with FICR values page size 4096
and code size 2 pages. -/
theorem nrf52_probe_spec_witness :
    nrf52_probe NRF52_FLASH_BASE_ADDR envFicr ⟨[], []⟩ =
      .ok (4096, 2 * 4096) ⟨sectorsShape 4096 (fun _ => -1) 0 2,
        [.readU32 NRF52_FICR_CODEPAGESIZE_ADDR, .readU32 NRF52_FICR_CODESIZE_ADDR]⟩
    ∧ nrf52_probe NRF52_UICR_BASE_ADDR envFicr ⟨[], []⟩ =
      .ok (4096, 4096) ⟨[{ offset := 0, size := 4096, is_erased := -1, is_protected := -1 }],
        [.readU32 NRF52_FICR_CODEPAGESIZE_ADDR, .readU32 NRF52_FICR_CODESIZE_ADDR]⟩ := by
  have h := nrf52_probe_spec envFicr ⟨[], []⟩ 4096 2 (by omega) (by omega) rfl rfl (fun _ => rfl)
  exact ⟨h.1, h.2.2.2.2⟩


/-! ### The erase loop of nrf52_write_pages under a well-behaved
environment -/

theorem eraseEvts_congr (ps : Nat) :
    ∀ (k a : Nat) (er er2 : Nat → Int), (∀ j, a ≤ j → j < a + k → er j = er2 j) →
      eraseEvts ps er a k = eraseEvts ps er2 a k := by
  intro k
  induction k with
  | zero => intro a er er2 _; rfl
  | succ m ih =>
    intro a er er2 h
    simp only [eraseEvts]
    rw [h a (Nat.le_refl a) (by omega),
      ih (a + 1) er er2 (fun j h1 h2 => h j (by omega) (by omega))]

theorem eraseEvts_setFlag (ps : Nat) (er : Nat → Int) (a m : Nat) :
    eraseEvts ps (setFlag er a) (a + 1) m = eraseEvts ps er (a + 1) m :=
  eraseEvts_congr ps m (a + 1) _ _ (fun j h1 _ => by
    show (if j = a then (1 : Int) else er j) = er j
    rw [if_neg (by omega)])

theorem setRange_zero (er : Nat → Int) (a : Nat) : setRange er a 0 = er := by
  funext j
  show (if a ≤ j ∧ j < a + 0 then (1 : Int) else er j) = er j
  rw [if_neg (by omega)]

theorem setRange_setFlag (er : Nat → Int) (a m : Nat) :
    setRange (setFlag er a) (a + 1) m = setRange er a (m + 1) := by
  funext j
  show (if a + 1 ≤ j ∧ j < a + 1 + m then (1 : Int) else setFlag er a j) =
    if a ≤ j ∧ j < a + (m + 1) then 1 else er j
  by_cases hja : j = a
  · subst hja
    rw [if_neg (by omega), if_pos (by omega)]
    show (if j = j then (1 : Int) else er j) = 1
    rw [if_pos rfl]
  · by_cases h2 : a + 1 ≤ j ∧ j < a + 1 + m
    · rw [if_pos h2, if_pos (by omega)]
    · rw [if_neg h2, if_neg (by omega)]
      show (if j = a then (1 : Int) else er j) = er j
      rw [if_neg hja]

theorem setFlag_getD (ps n a : Nat) (er : Nat → Int) (ha : a < n) :
    (sectorsShape ps er 0 n).getD a default =
      { offset := a * ps, size := ps, is_erased := er a, is_protected := -1 } := by
  have hg := sectorsShape_getD ps er n 0 a (Nat.zero_le a) (by omega)
  rwa [Nat.sub_zero] at hg

theorem setSectorErased_shape (ps n a : Nat) (er : Nat → Int) (env : Env) (tr : List Event)
    (ha : a < n) :
    setSectorErased a env ⟨sectorsShape ps er 0 n, tr⟩ =
      .ok () ⟨sectorsShape ps (setFlag er a) 0 n, tr⟩ := by
  unfold setSectorErased
  have hgetD := setFlag_getD ps n a er ha
  have hupd : ({ (sectorsShape ps er 0 n).getD a default with is_erased := 1 } : Sector) =
      { offset := a * ps, size := ps, is_erased := 1, is_protected := -1 } := by
    rw [hgetD]
  have hs := sectorsShape_set ps n 0 a er (Nat.zero_le a) (by omega)
  rw [Nat.sub_zero] at hs
  show Res.ok () ⟨(sectorsShape ps er 0 n).set a
      { (sectorsShape ps er 0 n).getD a default with is_erased := 1 }, tr⟩ =
    Res.ok () ⟨sectorsShape ps (setFlag er a) 0 n, tr⟩
  rw [hupd, hs]
  rfl

theorem erase_page_shape {env : Env} {r : Except Err Unit} (h : GoodEnv env r)
    (ps n a : Nat) (er : Nat → Int) (tr : List Event) (ha : a < n) :
    nrf52_erase_page 0 ps a env ⟨sectorsShape ps er 0 n, tr⟩ =
      .ok () ⟨sectorsShape ps (setFlag er a) 0 n, tr ++ pageEraseEvts (a * ps)⟩ := by
  have hgetD := setFlag_getD ps n a er ha
  rw [erase_page_good_code h ps a ⟨sectorsShape ps er 0 n, tr⟩
    (by show ((sectorsShape ps er 0 n).getD a default).is_protected ≠ 1
        rw [hgetD]
        simp)]
  have hupd : ({ (⟨sectorsShape ps er 0 n, tr⟩ : St).sectors.getD a default with
      is_erased := 1 } : Sector) =
      { offset := a * ps, size := ps, is_erased := 1, is_protected := -1 } := by
    show ({ (sectorsShape ps er 0 n).getD a default with is_erased := 1 } : Sector) = _
    rw [hgetD]
  have hs := sectorsShape_set ps n 0 a er (Nat.zero_le a) (by omega)
  rw [Nat.sub_zero] at hs
  have hoff : ((⟨sectorsShape ps er 0 n, tr⟩ : St).sectors.getD a default).offset = a * ps := by
    show ((sectorsShape ps er 0 n).getD a default).offset = a * ps
    rw [hgetD]
  rw [hupd, hoff]
  show Res.ok () ⟨(sectorsShape ps er 0 n).set a
      { offset := a * ps, size := ps, is_erased := 1, is_protected := -1 }, tr ++ _⟩ = _
  rw [hs]
  rfl

theorem erase_range_good {env : Env} {r : Except Err Unit} (h : GoodEnv env r)
    (ps n : Nat) (hps : 0 < ps) (hlt : n * ps < 4294967296) :
    ∀ (k a : Nat) (er : Nat → Int) (tr : List Event), a + k ≤ n →
      nrf52_erase_range 0 ps (a * ps) k env ⟨sectorsShape ps er 0 n, tr⟩ =
        .ok () ⟨sectorsShape ps (setRange er a k) 0 n, tr ++ eraseEvts ps er a k⟩ := by
  intro k
  induction k with
  | zero =>
    intro a er tr _
    simp only [nrf52_erase_range, M.run_pure, eraseEvts, List.append_nil, setRange_zero]
  | succ m ih =>
    intro a er tr hak
    have hax : a * ps < n * ps := by
      have h1 := Nat.mul_le_mul_right ps (show a + 1 ≤ n by omega)
      have h2 : a * ps < (a + 1) * ps := by
        rw [Nat.add_mul, Nat.one_mul]; omega
      omega
    have hfind : nrf52_find_sector_by_address ps (a * ps) (sectorsShape ps er 0 n) = some a := by
      unfold nrf52_find_sector_by_address
      rw [find_shape ps er hps n 0 (a * ps) (by simpa using hlt) (by simp)]
      rw [if_pos (by simpa using hax), Nat.mul_div_cancel a hps]
    have hgetD := setFlag_getD ps n a er (by omega)
    have hstep : a * ps + ps = (a + 1) * ps := by ring
    by_cases her : er a = 1
    · simp only [nrf52_erase_range, M.run_bind, getSectors, hfind, hgetD]
      rw [if_neg (show ¬((-1 : Int) = 1) by decide)]
      rw [if_neg (show ¬(er a ≠ 1) by simp [her])]
      rw [hstep]
      simp only [M.run_bind, M.run_pure,
        setSectorErased_shape ps n a er env tr (show a < n by omega),
        ih (a + 1) (setFlag er a) tr (by omega)]
      rw [setRange_setFlag, eraseEvts_setFlag]
      simp only [eraseEvts, if_pos her, List.nil_append]
    · simp only [nrf52_erase_range, M.run_bind, getSectors, hfind, hgetD]
      rw [if_neg (show ¬((-1 : Int) = 1) by decide)]
      rw [if_pos her]
      rw [hstep]
      have hidem : setFlag (setFlag er a) a = setFlag er a := by
        funext j
        show (if j = a then (1 : Int) else setFlag er a j) = setFlag er a j
        by_cases hja : j = a
        · subst hja
          rw [if_pos rfl]
          show (1 : Int) = if j = j then 1 else er j
          rw [if_pos rfl]
        · rw [if_neg hja]
      simp only [M.run_bind,
        erase_page_shape h ps n a er tr (show a < n by omega),
        setSectorErased_shape ps n a (setFlag er a) env (tr ++ pageEraseEvts (a * ps))
          (show a < n by omega),
        hidem,
        ih (a + 1) (setFlag er a) (tr ++ pageEraseEvts (a * ps)) (by omega)]
      rw [setRange_setFlag, eraseEvts_setFlag]
      simp only [eraseEvts, if_neg her]
      simp

/-! ### nrf52_write_pages under a well-behaved environment -/

theorem write_pages_good {env : Env} {r : Except Err Unit} (h : GoodEnv env r)
    (ps n a b : Nat) (er : Nat → Int) (buffer : Buf) (tr : List Event)
    (hps : 0 < ps) (h4 : ps % 4 = 0) (hab : a ≤ b) (hbn : b ≤ n)
    (hlt : n * ps < 4294967296) :
    nrf52_write_pages 0 ps (a * ps) (b * ps) buffer env ⟨sectorsShape ps er 0 n, tr⟩ =
      (match r with
       | .ok _ => Res.ok ()
       | .error e => Res.err e)
        ⟨sectorsShape ps (setRange er a (b - a)) 0 n,
         tr ++ eraseEvts ps er a (b - a) ++ wpTailEvts (a * ps) ((b - a) * ps)⟩ := by
  have hblt : b * ps < 4294967296 := lt_of_le_of_lt (Nat.mul_le_mul_right ps hbn) hlt
  have hbytes : u32sub (b * ps) (a * ps) = (b - a) * ps := by
    rw [u32sub_eq (Nat.mul_le_mul_right ps hab) hblt, Nat.sub_mul]
  have hk : (b - a) * ps / ps = b - a := Nat.mul_div_cancel _ hps
  have hmod4 : (b - a) * ps % 4 = 0 := by
    obtain ⟨q, hq⟩ := Nat.dvd_of_mod_eq_zero h4
    rw [hq, show (b - a) * (4 * q) = 4 * ((b - a) * q) by ring, Nat.mul_mod_right]
  simp only [nrf52_write_pages, M.run_ite,
    if_neg (show ¬(a * ps % ps ≠ 0) by simp [Nat.mul_mod_left]),
    if_neg (show ¬(b * ps % ps ≠ 0) by simp [Nat.mul_mod_left]),
    hbytes, hk, M.run_bind,
    erase_range_good h ps n hps hlt (b - a) a er tr (by omega),
    write_enable_good h, M.run_tryCatch,
    ll_flash_write_good h (a * ps) ((b - a) * ps) buffer, hmod4]
  cases r with
  | ok u =>
    simp only [read_only_good h]
    simp [wpTailEvts, llEvts]
  | error e =>
    simp only [M.run_bind, M.run_tryCatch, read_only_good h, M.run_pure, M.run_throw]
    simp [wpTailEvts, llEvts]

/-! ### Counting erase triggers -/

theorem countEvt_pageEraseEvts (ps : Nat) (hps : 0 < ps) (a i : Nat) :
    countEvt (pageEraseEvts (a * ps)) (.writeU32 NRF52_NVMC_ERASEPAGE_ADDR (i * ps)) =
      if a = i then 1 else 0 := by
  by_cases hai : a = i
  · subst hai
    simp [pageEraseEvts, countEvt, NRF52_NVMC_CONFIG_ADDR, NRF52_NVMC_ERASEPAGE_ADDR]
  · have hne : ¬(a * ps = i * ps) := fun hc => hai (Nat.eq_of_mul_eq_mul_right hps hc)
    simp [pageEraseEvts, countEvt, NRF52_NVMC_CONFIG_ADDR, NRF52_NVMC_ERASEPAGE_ADDR, hne, hai]

theorem countEvt_eraseEvts_lt (ps : Nat) (hps : 0 < ps) :
    ∀ (k a i : Nat) (er : Nat → Int), i < a →
      countEvt (eraseEvts ps er a k) (.writeU32 NRF52_NVMC_ERASEPAGE_ADDR (i * ps)) = 0 := by
  intro k
  induction k with
  | zero => intro a i er _; rfl
  | succ m ih =>
    intro a i er hia
    simp only [eraseEvts, countEvt_append]
    rw [ih (a + 1) i er (by omega)]
    by_cases her : er a = 1
    · rw [if_pos her]; rfl
    · rw [if_neg her, countEvt_pageEraseEvts ps hps a i, if_neg (by omega)]

theorem countEvt_eraseEvts_in (ps : Nat) (hps : 0 < ps) :
    ∀ (k a i : Nat) (er : Nat → Int), a ≤ i → i < a + k →
      countEvt (eraseEvts ps er a k) (.writeU32 NRF52_NVMC_ERASEPAGE_ADDR (i * ps)) =
        if er i = 1 then 0 else 1 := by
  intro k
  induction k with
  | zero => intro a i er h1 h2; omega
  | succ m ih =>
    intro a i er h1 h2
    simp only [eraseEvts, countEvt_append]
    by_cases hai : a = i
    · subst hai
      rw [countEvt_eraseEvts_lt ps hps m (a + 1) a er (by omega)]
      by_cases her : er a = 1
      · rw [if_pos her, if_pos her]; rfl
      · rw [if_neg her, if_neg her, countEvt_pageEraseEvts ps hps a a, if_pos rfl]
    · rw [ih (a + 1) i er (by omega) (by omega)]
      by_cases her : er a = 1
      · rw [if_pos her]
        simp [countEvt]
      · rw [if_neg her, countEvt_pageEraseEvts ps hps a i, if_neg hai]
        omega

theorem countEvt_wpTailEvts (start bytes ps i : Nat) :
    countEvt (wpTailEvts start bytes) (.writeU32 NRF52_NVMC_ERASEPAGE_ADDR (i * ps)) = 0 := by
  simp [wpTailEvts, llEvts, countEvt, NRF52_NVMC_CONFIG_ADDR, NRF52_NVMC_ERASEPAGE_ADDR]

/-! ### Claim C1 -/

/-- C1: for a page-aligned range `[a*ps, b*ps)` over a probe-shaped
sector table with arbitrary erase flags, under a well-behaved environment
whose streamed write finishes with result `r`: (i) each page whose
sector is already marked erased is never erased through the controller
(zero erase-trigger writes), and each other page is erased through the
controller exactly once; (ii) every page of the range is marked erased
afterwards; (iii) after the whole buffer is delegated to the bulk write
(the `runAlgo` step), the controller is returned to read-only mode —
the ready poll followed by the read-only configuration write are the last
events — regardless of the bulk write's outcome `r`; and (iv) the
operation's result is exactly `r`, surfacing a failed write's error. -/
theorem nrf52_write_pages_spec (env : Env) (r : Except Err Unit) (h : GoodEnv env r)
    (ps n a b : Nat) (er : Nat → Int) (buffer : Buf)
    (hps : 0 < ps) (h4 : ps % 4 = 0) (hab : a ≤ b) (hbn : b ≤ n)
    (hlt : n * ps < 4294967296) :
    (∀ i, a ≤ i → i < b →
      countEvt ((nrf52_write_pages 0 ps (a * ps) (b * ps) buffer env
          ⟨sectorsShape ps er 0 n, []⟩).st).trace
        (.writeU32 NRF52_NVMC_ERASEPAGE_ADDR (i * ps)) = if er i = 1 then 0 else 1)
    ∧ (∀ i, a ≤ i → i < b →
        (((nrf52_write_pages 0 ps (a * ps) (b * ps) buffer env
            ⟨sectorsShape ps er 0 n, []⟩).st).sectors.getD i default).is_erased = 1)
    ∧ (∃ pre, ((nrf52_write_pages 0 ps (a * ps) (b * ps) buffer env
          ⟨sectorsShape ps er 0 n, []⟩).st).trace =
        pre ++ [.runAlgo (NRF52_FLASH_BASE_ADDR + a * ps) ((b - a) * ps),
                .freeWA 0, .freeWA 0, .readU32 NRF52_NVMC_READY_ADDR,
                .writeU32 NRF52_NVMC_CONFIG_ADDR NRF52_NVMC_CONFIG_REN])
    ∧ (nrf52_write_pages 0 ps (a * ps) (b * ps) buffer env
        ⟨sectorsShape ps er 0 n, []⟩).toExcept = r := by
  have hw := write_pages_good h ps n a b er buffer [] hps h4 hab hbn hlt
  have hst : (nrf52_write_pages 0 ps (a * ps) (b * ps) buffer env
      ⟨sectorsShape ps er 0 n, []⟩).st =
      ⟨sectorsShape ps (setRange er a (b - a)) 0 n,
       [] ++ eraseEvts ps er a (b - a) ++ wpTailEvts (a * ps) ((b - a) * ps)⟩ := by
    rw [hw]; cases r <;> rfl
  have hres : (nrf52_write_pages 0 ps (a * ps) (b * ps) buffer env
      ⟨sectorsShape ps er 0 n, []⟩).toExcept = r := by
    rw [hw]
    cases r with
    | ok u => cases u; rfl
    | error e => rfl
  refine ⟨?_, ?_, ?_, hres⟩
  · intro i h1 h2
    rw [hst]
    show countEvt ([] ++ eraseEvts ps er a (b - a) ++ wpTailEvts (a * ps) ((b - a) * ps)) _ = _
    rw [List.nil_append, countEvt_append,
      countEvt_eraseEvts_in ps hps (b - a) a i er h1 (by omega),
      countEvt_wpTailEvts, Nat.add_zero]
  · intro i h1 h2
    rw [hst]
    show ((sectorsShape ps (setRange er a (b - a)) 0 n).getD i default).is_erased = 1
    rw [setFlag_getD ps n i (setRange er a (b - a)) (by omega)]
    show setRange er a (b - a) i = 1
    unfold setRange
    rw [if_pos (by omega)]
  · rw [hst]
    refine ⟨eraseEvts ps er a (b - a) ++
      [.readU32 NRF52_NVMC_READY_ADDR,
       .writeU32 NRF52_NVMC_CONFIG_ADDR NRF52_NVMC_CONFIG_WEN,
       .allocWA 32, .writeBuffer 0 32, .allocWA 8192], ?_⟩
    simp [wpTailEvts, llEvts]

theorem goodEnv_env0 : GoodEnv env0 (.ok ()) := by
  refine ⟨fun t => ?_, fun t a v => rfl, fun t a n => rfl, fun t => rfl,
    fun t n => rfl, fun t => rfl⟩
  simp [env0, NRF52_NVMC_READY]

/-- Witness for C1: a full two-page write on a fresh two-page bank under
the well-behaved environment: page 1 is erased exactly once, ends marked
erased, the bulk write of 8192 bytes is followed by the read-only
transition, and the operation succeeds. -/
theorem nrf52_write_pages_spec_witness :
    countEvt ((nrf52_write_pages 0 4096 (0 * 4096) (2 * 4096) bufC env0
        ⟨sectorsShape 4096 (fun _ => -1) 0 2, []⟩).st).trace
      (.writeU32 NRF52_NVMC_ERASEPAGE_ADDR (1 * 4096)) = 1
    ∧ (((nrf52_write_pages 0 4096 (0 * 4096) (2 * 4096) bufC env0
        ⟨sectorsShape 4096 (fun _ => -1) 0 2, []⟩).st).sectors.getD 1 default).is_erased = 1
    ∧ (∃ pre, ((nrf52_write_pages 0 4096 (0 * 4096) (2 * 4096) bufC env0
        ⟨sectorsShape 4096 (fun _ => -1) 0 2, []⟩).st).trace =
        pre ++ [.runAlgo (NRF52_FLASH_BASE_ADDR + 0 * 4096) ((2 - 0) * 4096),
                .freeWA 0, .freeWA 0, .readU32 NRF52_NVMC_READY_ADDR,
                .writeU32 NRF52_NVMC_CONFIG_ADDR NRF52_NVMC_CONFIG_REN])
    ∧ (nrf52_write_pages 0 4096 (0 * 4096) (2 * 4096) bufC env0
        ⟨sectorsShape 4096 (fun _ => -1) 0 2, []⟩).toExcept = .ok () := by
  have h := nrf52_write_pages_spec env0 (.ok ()) goodEnv_env0 4096 2 0 2 (fun _ => -1) bufC
    (by omega) (by omega) (by omega) (by omega) (by omega)
  refine ⟨?_, h.2.1 1 (by omega) (by omega), h.2.2.1, h.2.2.2⟩
  have h1 := h.1 1 (by omega) (by omega)
  rw [h1]
  simp

/-! ### Claim C3 -/

/-- The concrete run of the C3 scenario: 10 bytes at offset 4090 of a
fresh two-page bank under the well-behaved environment. -/
theorem code_flash_write_run :
    nrf52_code_flash_write 0 4096 bufC 4090 10 env0
        ⟨sectorsShape 4096 (fun _ => -1) 0 2, []⟩ =
      .ok () ⟨sectorsShape 4096 (setRange (fun _ => -1) 0 2) 0 2,
        [.readMem 0 4090, .readMem 4100 4092] ++ eraseEvts 4096 (fun _ => -1) 0 2 ++
          wpTailEvts 0 8192⟩ := by
  have hwp : ∀ (buf : Buf) (tr : List Event),
      nrf52_write_pages 0 4096 0 8192 buf env0 ⟨sectorsShape 4096 (fun _ => -1) 0 2, tr⟩ =
        .ok () ⟨sectorsShape 4096 (setRange (fun _ => -1) 0 2) 0 2,
          tr ++ eraseEvts 4096 (fun _ => -1) 0 2 ++ wpTailEvts 0 8192⟩ := by
    intro buf tr
    have h := write_pages_good goodEnv_env0 4096 2 0 2 (fun _ => -1)
      buf tr (by omega) (by omega) (by omega) (by omega) (by omega)
    norm_num at h
    rw [List.append_assoc]
    exact h
  have hrm : ∀ t a n, env0.readMemErr t a n = none := fun _ _ _ => rfl
  simp only [nrf52_code_flash_write]
  norm_num [u32, u32sub]
  simp only [M.run_bind, target_read_memory, hrm, M.run_pure]
  rw [hwp]
  simp

/-- C3 counterexample.  The claim says the "post" gap read of the
scenario (page size 4096, two pages, 10 bytes written at offset 4090) is
4086 bytes.  In the actual run no read of 4086 bytes occurs at all: the
written range ends at offset 4100, so the post gap read is the 4092
bytes from offset 4100 to the end of page 1. -/
theorem nrf52_code_write_post_gap_4092 :
    countIf ((nrf52_code_flash_write 0 4096 bufC 4090 10 env0 ⟨bankTwoPages, []⟩).st).trace
      (fun e => match e with | .readMem _ 4086 => true | _ => false) = 0
    ∧ countEvt ((nrf52_code_flash_write 0 4096 bufC 4090 10 env0 ⟨bankTwoPages, []⟩).st).trace
      (.readMem 4100 4092) = 1 := by
  rw [show (⟨bankTwoPages, []⟩ : St) = ⟨sectorsShape 4096 (fun _ => -1) 0 2, []⟩ by decide,
    code_flash_write_run]
  decide

/-- C3 (amended): with page size 4096 and a two-page code bank, writing
10 bytes at offset 4090 erases each of the two pages exactly once, reads
a "pre" gap of 4090 bytes starting at page 0, reads a "post" gap of 4092
bytes starting at offset 4100 in page 1, hands a final buffer of exactly
8192 bytes to the streamed write, ends with the read-only transition and
succeeds. -/
theorem nrf52_code_write_scenario :
    countEvt ((nrf52_code_flash_write 0 4096 bufC 4090 10 env0 ⟨bankTwoPages, []⟩).st).trace
      (.writeU32 NRF52_NVMC_ERASEPAGE_ADDR 0) = 1
    ∧ countEvt ((nrf52_code_flash_write 0 4096 bufC 4090 10 env0 ⟨bankTwoPages, []⟩).st).trace
      (.writeU32 NRF52_NVMC_ERASEPAGE_ADDR 4096) = 1
    ∧ countEvt ((nrf52_code_flash_write 0 4096 bufC 4090 10 env0 ⟨bankTwoPages, []⟩).st).trace
      (.readMem 0 4090) = 1
    ∧ countEvt ((nrf52_code_flash_write 0 4096 bufC 4090 10 env0 ⟨bankTwoPages, []⟩).st).trace
      (.readMem 4100 4092) = 1
    ∧ countEvt ((nrf52_code_flash_write 0 4096 bufC 4090 10 env0 ⟨bankTwoPages, []⟩).st).trace
      (.runAlgo 0 8192) = 1
    ∧ ((nrf52_code_flash_write 0 4096 bufC 4090 10 env0 ⟨bankTwoPages, []⟩).st).trace.getLast? =
        some (.writeU32 NRF52_NVMC_CONFIG_ADDR NRF52_NVMC_CONFIG_REN)
    ∧ (nrf52_code_flash_write 0 4096 bufC 4090 10 env0 ⟨bankTwoPages, []⟩).isOk = true := by
  rw [show (⟨bankTwoPages, []⟩ : St) = ⟨sectorsShape 4096 (fun _ => -1) 0 2, []⟩ by decide,
    code_flash_write_run]
  decide

/-! ### Claim C4 -/

theorem countIf_slowEvts_writeMem : ∀ (n offset : Nat),
    countIf (slowEvts offset n) isWriteMemEvt = n := by
  intro n
  induction n with
  | zero => intro offset; rfl
  | succ m ih => intro offset; simp [slowEvts, countIf, isWriteMemEvt, ih]; omega

theorem countIf_slowEvts_runAlgo : ∀ (n offset : Nat),
    countIf (slowEvts offset n) isRunAlgoEvt = 0 := by
  intro n
  induction n with
  | zero => intro offset; rfl
  | succ m ih => intro offset; simp [slowEvts, countIf, isRunAlgoEvt, ih]

theorem countIf_slowEvts_writeBuffer : ∀ (n offset : Nat),
    countIf (slowEvts offset n) isWriteBufferEvt = 0 := by
  intro n
  induction n with
  | zero => intro offset; rfl
  | succ m ih => intro offset; simp [slowEvts, countIf, isWriteBufferEvt, ih]

/-- If the loader-program working area cannot be allocated, the write is
performed by the slow word-at-a-time path: one memory write per 4-byte
word, each followed by a ready-wait, with no error. -/
theorem ll_slow_fallback (env : Env) (offset bytes : Nat) (buffer : Buf) (s : St)
    (halloc : env.allocWA s.trace.length nrf52_flash_write_code.length = none)
    (hb : bytes % 4 = 0)
    (hw : ∀ t a2, env.writeMem t a2 = .ok ())
    (hr : ∀ t, env.readU32 t NRF52_NVMC_READY_ADDR = .ok NRF52_NVMC_READY) :
    nrf52_ll_flash_write offset buffer bytes env s =
      .ok () { s with trace := s.trace ++
        (Event.allocWA nrf52_flash_write_code.length :: slowEvts offset (bytes / 4)) } := by
  simp only [nrf52_ll_flash_write, M.run_ite, if_neg (by omega : ¬bytes % 4 ≠ 0), M.run_bind,
    target_alloc_working_area, halloc]
  rw [slow_writes_good env hw hr (bytes / 4) offset]
  simp

theorem alloc_buffer_fail (env : Env)
    (hfail : ∀ t sz, 256 < sz → env.allocWA t sz = none) :
    ∀ (fuel size : Nat) (s : St), 256 < size →
      nrf52_alloc_buffer fuel size env s =
        .ok none { s with trace := s.trace ++ (allocTries fuel size).map .allocWA } := by
  intro fuel
  induction fuel with
  | zero => intro size s _; simp [nrf52_alloc_buffer, allocTries, M.run_pure]
  | succ m ih =>
    intro size s hsz
    simp only [nrf52_alloc_buffer, M.run_bind, target_alloc_working_area, hfail _ _ hsz]
    by_cases hbs : size / 2 / 4 * 4 ≤ 256
    · rw [M.run_ite, if_pos hbs]
      simp [allocTries, if_pos hbs, M.run_pure]
    · rw [M.run_ite, if_neg hbs]
      rw [ih (size / 2 / 4 * 4) _ (by omega)]
      simp [allocTries, if_neg hbs]

/-- If the loader-program working area is available but no streaming
buffer can be allocated all the way down the shrink loop, the loader area
is freed and the resource-unavailable error is returned to the caller:
no slow-path fallback happens. -/
theorem ll_buffer_exhaust (env : Env) (offset bytes : Nat) (buffer : Buf) (s : St) (a0 : Nat)
    (hb : bytes % 4 = 0)
    (halloc : env.allocWA s.trace.length nrf52_flash_write_code.length = some a0)
    (hwb : ∀ t, env.writeBuffer t = .ok ())
    (hfail : ∀ t sz, 256 < sz → env.allocWA t sz = none) :
    nrf52_ll_flash_write offset buffer bytes env s =
      .err .resourceUnavailable { s with trace := s.trace ++
        (Event.allocWA nrf52_flash_write_code.length ::
          Event.writeBuffer a0 nrf52_flash_write_code.length ::
          ((allocTries 16 8192).map Event.allocWA ++ [Event.freeWA a0])) } := by
  simp only [nrf52_ll_flash_write, M.run_ite, if_neg (by omega : ¬bytes % 4 ≠ 0), M.run_bind,
    target_alloc_working_area, halloc, target_write_buffer, hwb]
  rw [alloc_buffer_fail env hfail 16 8192 _ (by omega)]
  simp only [target_free_working_area, M.run_bind, M.run_throw]
  simp

/-- C4 (amended): failure to allocate the loader-program scratch area
makes the write fall back to the slow word-at-a-time path with no error
reported — the trace is exactly one memory write per word, each followed
by a ready poll, with no streamed run and no loader program installed;
but exhaustion of the buffer-area shrink loop (8192 halved down to the
256-byte floor) releases the program area and returns the
resource-unavailable error to the caller instead of falling back. -/
theorem nrf52_ll_flash_write_alloc_behavior :
    (∀ (env : Env) (offset bytes : Nat) (buffer : Buf) (s : St),
      env.allocWA s.trace.length nrf52_flash_write_code.length = none →
      bytes % 4 = 0 →
      (∀ t a2, env.writeMem t a2 = .ok ()) →
      (∀ t, env.readU32 t NRF52_NVMC_READY_ADDR = .ok NRF52_NVMC_READY) →
      nrf52_ll_flash_write offset buffer bytes env s =
        .ok () { s with trace := s.trace ++
          (Event.allocWA nrf52_flash_write_code.length :: slowEvts offset (bytes / 4)) }
      ∧ countIf (slowEvts offset (bytes / 4)) isWriteMemEvt = bytes / 4
      ∧ countIf (slowEvts offset (bytes / 4)) isRunAlgoEvt = 0
      ∧ countIf (slowEvts offset (bytes / 4)) isWriteBufferEvt = 0)
    ∧ (∀ (env : Env) (offset bytes : Nat) (buffer : Buf) (s : St) (a0 : Nat),
      bytes % 4 = 0 →
      env.allocWA s.trace.length nrf52_flash_write_code.length = some a0 →
      (∀ t, env.writeBuffer t = .ok ()) →
      (∀ t sz, 256 < sz → env.allocWA t sz = none) →
      nrf52_ll_flash_write offset buffer bytes env s =
        .err .resourceUnavailable { s with trace := s.trace ++
          (Event.allocWA nrf52_flash_write_code.length ::
            Event.writeBuffer a0 nrf52_flash_write_code.length ::
            ((allocTries 16 8192).map Event.allocWA ++ [Event.freeWA a0])) }) := by
  constructor
  · intro env offset bytes buffer s halloc hb hw hr
    exact ⟨ll_slow_fallback env offset bytes buffer s halloc hb hw hr,
      countIf_slowEvts_writeMem (bytes / 4) offset,
      countIf_slowEvts_runAlgo (bytes / 4) offset,
      countIf_slowEvts_writeBuffer (bytes / 4) offset⟩
  · intro env offset bytes buffer s a0 hb halloc hwb hfail
    exact ll_buffer_exhaust env offset bytes buffer s a0 hb halloc hwb hfail

/-- C4 counterexample: with the loader-program area available but no
streaming buffer of any size, a 16-byte write is NOT performed by the
slow path and IS reported as an error: the run returns the
resource-unavailable error after trying sizes 8192, 4096, 2048, 1024 and
512, and performs no word write at all. -/
theorem nrf52_ll_buffer_exhaustion_errors :
    nrf52_ll_flash_write 0 bufC 16 envNoBuffer ⟨[], []⟩ =
      .err .resourceUnavailable ⟨[], [.allocWA 32, .writeBuffer 5 32, .allocWA 8192,
        .allocWA 4096, .allocWA 2048, .allocWA 1024, .allocWA 512, .freeWA 5]⟩
    ∧ countIf [.allocWA 32, .writeBuffer 5 32, .allocWA 8192, .allocWA 4096, .allocWA 2048,
        .allocWA 1024, .allocWA 512, .freeWA 5] isWriteMemEvt = 0 := by
  constructor
  · have h := ll_buffer_exhaust envNoBuffer 0 16 bufC ⟨[], []⟩ 5 (by decide) rfl
      (fun t => rfl)
      (fun t sz hsz => by
        show (if sz = 32 then some 5 else none) = none
        rw [if_neg (by omega)])
    rw [h]
    decide
  · decide

/-- Witness for C4: the slow-path half under an environment with no
working area at all, writing 16 bytes as 4 words. -/
theorem nrf52_ll_flash_write_alloc_behavior_witness :
    nrf52_ll_flash_write 0 bufC 16 envNoWA ⟨[], []⟩ =
      .ok () ⟨[], Event.allocWA 32 :: slowEvts 0 4⟩
    ∧ countIf (slowEvts 0 4) isWriteMemEvt = 4
    ∧ nrf52_ll_flash_write 0 bufC 16 envNoBuffer ⟨[], []⟩ =
      .err .resourceUnavailable ⟨[], Event.allocWA 32 :: Event.writeBuffer 5 32 ::
        ((allocTries 16 8192).map Event.allocWA ++ [Event.freeWA 5])⟩ := by
  have ha := nrf52_ll_flash_write_alloc_behavior.1 envNoWA 0 16 bufC ⟨[], []⟩ rfl (by decide)
    (fun t a2 => rfl)
    (fun t => by simp [envNoWA, env0, NRF52_NVMC_READY])
  have hb := nrf52_ll_flash_write_alloc_behavior.2 envNoBuffer 0 16 bufC ⟨[], []⟩ 5 (by decide)
    rfl (fun t => rfl)
    (fun t sz hsz => by
      show (if sz = 32 then some 5 else none) = none
      rw [if_neg (by omega)])
  exact ⟨ha.1, ha.2.1, hb⟩

/-! ### Claim C5 -/

/-- UICR page erase on the one-sector config bank under a well-behaved
environment. -/
theorem erase_page_uicr_one {env : Env} {r : Except Err Unit} (h : GoodEnv env r)
    (ps : Nat) (er0 prot0 : Int) (tr : List Event) (hprot : prot0 ≠ 1) :
    nrf52_erase_page NRF52_UICR_BASE_ADDR ps 0 env
        ⟨[{ offset := 0, size := ps, is_erased := er0, is_protected := prot0 }], tr⟩ =
      .ok () ⟨[{ offset := 0, size := ps, is_erased := 1, is_protected := prot0 }],
        tr ++ uicrEraseEvts⟩ := by
  have h1 := erase_page_good_uicr h ps 0
    ⟨[{ offset := 0, size := ps, is_erased := er0, is_protected := prot0 }], tr⟩
    (by show prot0 ≠ 1; exact hprot)
  rw [h1]
  rfl

/-- Full run of a config-region write that passes the bounds check, on a
one-sector bank, under a well-behaved environment: whole-region read,
erase of the single sector exactly when it is not already marked erased,
write-enable, streamed full-page write, read-only. -/
theorem uicr_write_good_run (env : Env) (h : GoodEnv env (.ok ()))
    (ps : Nat) (er0 prot0 : Int) (buffer : Buf) (offset count : Nat) (tr : List Event)
    (h4 : ps % 4 = 0) (hprot : prot0 ≠ 1)
    (hbound : ¬(u32 (offset + count) > ps)) :
    nrf52_uicr_flash_write ps buffer offset count env
        ⟨[{ offset := 0, size := ps, is_erased := er0, is_protected := prot0 }], tr⟩ =
      .ok () ⟨[{ offset := 0, size := ps, is_erased := 1, is_protected := prot0 }],
        tr ++ (Event.readMem NRF52_UICR_BASE_ADDR ps ::
          ((if er0 = 1 then [] else uicrEraseEvts) ++
            (Event.readU32 NRF52_NVMC_READY_ADDR ::
             Event.writeU32 NRF52_NVMC_CONFIG_ADDR NRF52_NVMC_CONFIG_WEN ::
             (llEvts NRF52_UICR_BASE_ADDR ps ++
              [Event.readU32 NRF52_NVMC_READY_ADDR,
               Event.writeU32 NRF52_NVMC_CONFIG_ADDR NRF52_NVMC_CONFIG_REN]))))⟩ := by
  simp only [nrf52_uicr_flash_write, M.run_ite, if_neg hbound, M.run_bind,
    target_read_memory, h.readMem_ok, getSectors, List.getD_cons_zero]
  by_cases her : er0 = 1
  · rw [if_neg (show ¬(er0 ≠ 1) by simp [her])]
    simp only [M.run_bind, M.run_pure, write_enable_good h, M.run_tryCatch,
      ll_flash_write_good h NRF52_UICR_BASE_ADDR ps, h4, read_only_good h]
    rw [if_pos her, her]
    try simp
    try rfl
  · rw [if_pos her]
    rw [erase_page_uicr_one h ps er0 prot0 (tr ++ [Event.readMem NRF52_UICR_BASE_ADDR ps]) hprot]
    simp only [M.run_bind, M.run_pure, write_enable_good h, M.run_tryCatch,
      ll_flash_write_good h NRF52_UICR_BASE_ADDR ps, h4, read_only_good h]
    rw [if_neg her]
    try simp
    try rfl

/-- C5 counterexample.  The claim says a full-overwrite config-region
write (offset 0, count = page size) performs no reads of existing target
contents.  The code always reads the whole one-page region first: the
very first external operation of the run is a 4096-byte read of the
config region. -/
theorem nrf52_uicr_full_overwrite_reads_target :
    countEvt ((nrf52_uicr_flash_write 4096 bufC 0 4096 env0 ⟨bankUicrFresh, []⟩).st).trace
      (.readMem NRF52_UICR_BASE_ADDR 4096) = 1
    ∧ ((nrf52_uicr_flash_write 4096 bufC 0 4096 env0 ⟨bankUicrFresh, []⟩).st).trace.head? =
        some (.readMem NRF52_UICR_BASE_ADDR 4096) := by
  have h := uicr_write_good_run env0 goodEnv_env0 4096 (-1) (-1) bufC 0 4096 []
    (by omega) (by decide) (by decide)
  rw [show bankUicrFresh =
    [{ offset := 0, size := 4096, is_erased := -1, is_protected := -1 }] from rfl]
  rw [h]
  decide

/-- C5 (amended): a config-region write at offset 0 with count equal to
the page size performs exactly one whole-region read of the existing
target contents, whose bytes are then entirely overwritten by the
caller's data (every byte of the spliced page buffer equals the caller's
buffer), one erase of the single sector exactly when it is not already
marked erased, one full-page streamed write of page-size bytes, and ends
with the read-only transition, reporting success. -/
theorem nrf52_uicr_full_overwrite_spec (env : Env) (h : GoodEnv env (.ok ()))
    (ps : Nat) (er0 prot0 : Int) (buffer : Buf) (tr : List Event)
    (h4 : ps % 4 = 0) (hlt : ps < 4294967296) (hprot : prot0 ≠ 1) :
    nrf52_uicr_flash_write ps buffer 0 ps env
        ⟨[{ offset := 0, size := ps, is_erased := er0, is_protected := prot0 }], tr⟩ =
      .ok () ⟨[{ offset := 0, size := ps, is_erased := 1, is_protected := prot0 }],
        tr ++ (Event.readMem NRF52_UICR_BASE_ADDR ps ::
          ((if er0 = 1 then [] else uicrEraseEvts) ++
            (Event.readU32 NRF52_NVMC_READY_ADDR ::
             Event.writeU32 NRF52_NVMC_CONFIG_ADDR NRF52_NVMC_CONFIG_WEN ::
             (llEvts NRF52_UICR_BASE_ADDR ps ++
              [Event.readU32 NRF52_NVMC_READY_ADDR,
               Event.writeU32 NRF52_NVMC_CONFIG_ADDR NRF52_NVMC_CONFIG_REN]))))⟩
    ∧ (∀ (u : Buf) (i : Nat), i < ps → (memcpyBuf u 0 buffer ps).data i = buffer.data i)
    ∧ countEvt (if er0 = 1 then ([] : List Event) else uicrEraseEvts)
        (.writeU32 NRF52_NVMC_ERASEUICR_ADDR 1) = (if er0 = 1 then 0 else 1)
    ∧ countEvt (llEvts NRF52_UICR_BASE_ADDR ps)
        (.runAlgo (NRF52_FLASH_BASE_ADDR + NRF52_UICR_BASE_ADDR) ps) = 1 := by
  refine ⟨uicr_write_good_run env h ps er0 prot0 buffer 0 ps tr h4 hprot
    (by rw [Nat.zero_add, u32_eq hlt]; omega), ?_, ?_, ?_⟩
  · intro u i hi
    show (if 0 ≤ i ∧ i < 0 + ps then buffer.data (i - 0) else u.data i) = buffer.data i
    rw [if_pos ⟨Nat.zero_le i, by omega⟩, Nat.sub_zero]
  · by_cases her : er0 = 1
    · rw [if_pos her, if_pos her]
      rfl
    · rw [if_neg her, if_neg her]
      decide
  · simp [llEvts, countEvt]

/-- Witness for C5 (amended): the concrete full-overwrite run on a fresh
config bank, plus one byte of the splice being the caller's byte. -/
theorem nrf52_uicr_full_overwrite_spec_witness :
    nrf52_uicr_flash_write 4096 bufC 0 4096 env0
        ⟨[{ offset := 0, size := 4096, is_erased := -1, is_protected := -1 }], []⟩ =
      .ok () ⟨[{ offset := 0, size := 4096, is_erased := 1, is_protected := -1 }],
        [] ++ (Event.readMem NRF52_UICR_BASE_ADDR 4096 ::
          ((if (-1 : Int) = 1 then [] else uicrEraseEvts) ++
            (Event.readU32 NRF52_NVMC_READY_ADDR ::
             Event.writeU32 NRF52_NVMC_CONFIG_ADDR NRF52_NVMC_CONFIG_WEN ::
             (llEvts NRF52_UICR_BASE_ADDR 4096 ++
              [Event.readU32 NRF52_NVMC_READY_ADDR,
               Event.writeU32 NRF52_NVMC_CONFIG_ADDR NRF52_NVMC_CONFIG_REN]))))⟩
    ∧ (memcpyBuf ⟨fun _ => 0⟩ 0 bufC 4096).data 5 = bufC.data 5 := by
  have h := nrf52_uicr_full_overwrite_spec env0 goodEnv_env0 4096 (-1) (-1) bufC []
    (by omega) (by omega) (by decide)
  exact ⟨h.1, h.2.1 ⟨fun _ => 0⟩ 5 (by omega)⟩

/-! ### Claim C9 -/

/-- C9 (amended): a config-region write whose `offset + count`, computed
in 32-bit wraparound arithmetic, exceeds the one-page region size fails
fast with the generic failure error, before any target read, any erase
and any write — the state (sector table and trace) is completely
untouched. -/
theorem nrf52_uicr_bounds_check (env : Env) (s : St) (ps offset count : Nat) (buffer : Buf)
    (h : u32 (offset + count) > ps) :
    nrf52_uicr_flash_write ps buffer offset count env s = .err .fail s := by
  simp only [nrf52_uicr_flash_write, M.run_ite, if_pos h, M.run_throw]

/-- Witness for C9 (amended): a 5000-byte write at offset 0 of the
4096-byte config region is rejected untouched. -/
theorem nrf52_uicr_bounds_check_witness :
    nrf52_uicr_flash_write 4096 bufC 0 5000 env0 ⟨bankUicrFresh, []⟩ =
      .err .fail ⟨bankUicrFresh, []⟩ :=
  nrf52_uicr_bounds_check env0 ⟨bankUicrFresh, []⟩ 4096 0 5000 bufC (by decide)

/-- C9 counterexample.  The claim says every request with
`offset + count` exceeding the region size fails fast before any target
access.  With offset = count = 2^31 the mathematical sum 2^32 exceeds
the 4096-byte region, yet the 32-bit sum wraps to 0, the bounds check
passes, the run reads the region (its first external operation) and the
write completes successfully. -/
theorem nrf52_uicr_bounds_overflow_accepts :
    2147483648 + 2147483648 > 4096
    ∧ (nrf52_uicr_flash_write 4096 bufC 2147483648 2147483648 env0
        ⟨bankUicrErased, []⟩).isOk = true
    ∧ ((nrf52_uicr_flash_write 4096 bufC 2147483648 2147483648 env0
        ⟨bankUicrErased, []⟩).st).trace.head? =
        some (.readMem NRF52_UICR_BASE_ADDR 4096) := by
  have h := uicr_write_good_run env0 goodEnv_env0 4096 1 (-1) bufC 2147483648 2147483648 []
    (by omega) (by decide) (by decide)
  rw [show bankUicrErased =
    [{ offset := 0, size := 4096, is_erased := 1, is_protected := -1 }] from rfl]
  rw [h]
  refine ⟨by omega, rfl, by decide⟩

/-! ### Claim C10 -/

/-- C10: the config-region bounds check computes `offset + count` in
32-bit wraparound arithmetic: with offset 16 and count 2^32 - 8 the
mathematical sum is at least 2^32, the 32-bit sum wraps to 8, the
request passes the bounds check instead of being rejected, and the run
proceeds to read the region (its first external operation) and complete. -/
theorem nrf52_uicr_bounds_wraparound :
    16 + (4294967296 - 8) ≥ 4294967296
    ∧ u32 (16 + (4294967296 - 8)) = 8
    ∧ ¬(u32 (16 + (4294967296 - 8)) > 4096)
    ∧ (nrf52_uicr_flash_write 4096 bufC 16 (4294967296 - 8) env0
        ⟨bankUicrErased, []⟩).isOk = true
    ∧ ((nrf52_uicr_flash_write 4096 bufC 16 (4294967296 - 8) env0
        ⟨bankUicrErased, []⟩).st).trace.head? =
        some (.readMem NRF52_UICR_BASE_ADDR 4096) := by
  have h := uicr_write_good_run env0 goodEnv_env0 4096 1 (-1) bufC 16 (4294967296 - 8) []
    (by omega) (by decide) (by decide)
  rw [show bankUicrErased =
    [{ offset := 0, size := 4096, is_erased := 1, is_protected := -1 }] from rfl]
  rw [h]
  refine ⟨by omega, by decide, by decide, rfl, by decide⟩
